import Mathlib

/-!
Verification development for the whr-converter repository: a translator from
loosely structured patient records (a FHIR-style Patient resource and a flat
practice-schema JSON record) to HL7v2 ADT messages in the ER7 wire format.

The Python sources are shallowly embedded:
* `fhir_to_hl7_converter.py` (class `FHIRToHL7Converter`) over a typed record
  model (`Patient`) and, for the malformed-input contract, over a JSON value
  model with Python dynamic-access semantics in the `Except` monad;
* the field formatters of `json_to_hl7_converter.py` (`map_gender_code`,
  `format_hl7_datetime`, `format_phone_number`) and the date-of-birth and
  administrative-sex fields of `create_hl7_message`;
* the ER7 message model and codec, which the sources delegate to the hl7apy
  library, are modelled from the specification (see `encodeMsg` / `decodeMsg`).

Python strings are modelled as `String` or `List Char` (ASCII-faithful),
dictionaries of known schema as structures with optional fields, the wall
clock as an explicit `DateTime` argument, and exceptions as `Except`.
-/

namespace WhrConverter

/-- Left-pad a natural number with zeros to two digits (strftime zero padding). -/
def pad2 (n : Nat) : String :=
  if n < 10 then "0" ++ toString n else toString n

/-- Left-pad a natural number with zeros to four digits (strftime zero padding). -/
def pad4 (n : Nat) : String :=
  if n < 10 then "000" ++ toString n
  else if n < 100 then "00" ++ toString n
  else if n < 1000 then "0" ++ toString n
  else toString n

/-- A naive wall-clock datetime, as produced by Python `datetime.now()`. -/
structure DateTime where
  year : Nat
  month : Nat
  day : Nat
  hour : Nat
  minute : Nat
  second : Nat
deriving DecidableEq, Repr

/-- Python `strftime("%Y%m%d%H%M%S")`. -/
def stampYmdHms (t : DateTime) : String :=
  pad4 t.year ++ pad2 t.month ++ pad2 t.day ++ pad2 t.hour ++ pad2 t.minute ++ pad2 t.second

/-- Python `strftime("%Y%m%d%H%M%S%z")` on a naive datetime: `%z` renders empty. -/
def stampYmdHmsZ (t : DateTime) : String := stampYmdHms t ++ ""

/-! ## Character-level text utilities

Python string primitives are embedded structurally over `List Char` so that
every definition evaluates by plain reduction. -/

/-- Join parts with a separator character. -/
def joinSep (sep : Char) : List (List Char) → List Char
  | [] => []
  | [p] => p
  | p :: rest => p ++ sep :: joinSep sep rest

/-- Split text at every occurrence of a separator character (the inverse of
`joinSep` on separator-free parts). -/
def splitSep (sep : Char) : List Char → List (List Char)
  | [] => [[]]
  | c :: rest =>
    match splitSep sep rest with
    | [] => [[c]]
    | p :: ps => if c = sep then [] :: p :: ps else (c :: p) :: ps

/-- Python `s.split(sep)` with a one-character separator. -/
def splitOnChar (c : Char) (s : String) : List String :=
  (splitSep c s.data).map String.mk

/-- Python `s.replace(old, new)` with a one-character pattern. -/
def replaceChar (c : Char) (r : List Char) : List Char → List Char
  | [] => []
  | x :: rest => (if x = c then r else [x]) ++ replaceChar c r rest

/-- Python `s.upper()` for ASCII text. -/
def upperAscii (s : String) : String := String.mk (s.data.map Char.toUpper)

/-- Numeric value of a digit string (callers guard that every character is a
digit). -/
def natOfDigits (l : List Char) : Nat :=
  l.foldl (fun acc c => acc * 10 + (c.toNat - 48)) 0

/-! ## Typed record model for the FHIR Patient shape -/

/-- One entry of a FHIR Patient `identifier` list: its `type.text` tag and value. -/
structure IdentifierEntry where
  typeText : Option String
  value : Option String
deriving DecidableEq, Repr

/-- One entry of a FHIR Patient `name` list (`prefixes` embeds the FHIR prefix list). -/
structure HumanName where
  use : Option String
  family : Option String
  given : List String
  prefixes : List String
deriving DecidableEq, Repr

/-- One entry of a FHIR Patient `address` list. -/
structure AddressEntry where
  line : List String
  city : Option String
  state : Option String
  postalCode : Option String
  country : Option String
deriving DecidableEq, Repr

/-- One entry of a FHIR Patient `telecom` list. -/
structure ContactPoint where
  system : Option String
  value : Option String
  use : Option String
deriving DecidableEq, Repr

/-- A FHIR Patient resource restricted to the fields the converter reads. -/
structure Patient where
  id : Option String
  identifier : List IdentifierEntry
  name : List HumanName
  birthDate : Option String
  gender : Option String
  address : List AddressEntry
  telecom : List ContactPoint
deriving DecidableEq, Repr

/-! ## `fhir_to_hl7_converter.py`: selection policies and field values -/

/-- The test of the `_get_patient_identifier` loop: `identifier.type.text == 'IHI'`. -/
def isIHI (i : IdentifierEntry) : Bool := i.typeText == some "IHI"

/-- `FHIRToHL7Converter._get_patient_identifier`: first IHI-tagged identifier,
else first identifier, else the record id, else the sentinel. -/
def getPatientIdentifier (p : Patient) : String :=
  match p.identifier.find? isIHI with
  | some i => i.value.getD ""
  | none =>
    match p.identifier with
    | [] => p.id.getD "UNKNOWN"
    | i :: _ => i.value.getD ""

/-- `FHIRToHL7Converter._get_ihi_system`. -/
def ihiSystem : String := "http://ns.electronichealth.net.au/id/hi/ihi/1.0"

/-- The test of the `_get_patient_name` loop: `name.use == 'usual'`. -/
def isUsual (n : HumanName) : Bool := n.use == some "usual"

/-- `FHIRToHL7Converter._get_patient_name`: first name flagged usual, else the
first name, else none. -/
def getPatientName (p : Patient) : Option HumanName :=
  match p.name with
  | [] => none
  | n :: rest =>
    match (n :: rest).find? isUsual with
    | some u => some u
    | none => some n

/-- `FHIRToHL7Converter._get_patient_address`: the first address only. -/
def getPatientAddress (p : Patient) : Option AddressEntry := p.address.head?

/-- `FHIRToHL7Converter._map_telecom_use`. -/
def mapTelecomUse (u : String) : String :=
  if u = "home" then "H"
  else if u = "work" then "W"
  else if u = "mobile" then "M"
  else if u = "temp" then "T"
  else if u = "old" then "O"
  else "PRN"

/-- The phone entry format string shared by `_format_telecom` and
`_get_additional_phones`. -/
def phoneEntry (u v : String) : String := v ++ "^" ++ mapTelecomUse u ++ "^PH^^61^07^" ++ v

/-- The email entry format string of `_format_telecom`. -/
def emailEntry (v : String) : String := v ++ "^NET^Internet^" ++ v

/-- One iteration of the `_format_telecom` loop: entries with falsy values are
skipped, phone and email systems are formatted, all others are dropped. -/
def fmtContact (c : ContactPoint) : Option String :=
  let v := c.value.getD ""
  if v = "" then none
  else if c.system.getD "" = "phone" then some (phoneEntry (c.use.getD "") v)
  else if c.system.getD "" = "email" then some (emailEntry v)
  else none

/-- The accumulator of the `_format_telecom` loop. -/
def formattedContacts : List ContactPoint → List String
  | [] => []
  | c :: rest =>
    match fmtContact c with
    | some s => s :: formattedContacts rest
    | none => formattedContacts rest

/-- `FHIRToHL7Converter._format_telecom`. -/
def formatTelecom (l : List ContactPoint) : String :=
  if l.isEmpty then "" else String.intercalate "~" (formattedContacts l)

/-- The test of the `_get_additional_phones` loop:
`contact.get('system') == 'phone' and contact.get('value')`. -/
def isPhoneWithValue (c : ContactPoint) : Bool :=
  c.system == some "phone" && !((c.value.getD "") == "")

/-- The accumulator of the `_get_additional_phones` loop. -/
def phoneContacts : List ContactPoint → List String
  | [] => []
  | c :: rest =>
    if isPhoneWithValue c then
      phoneEntry (c.use.getD "") (c.value.getD "") :: phoneContacts rest
    else phoneContacts rest

/-- `FHIRToHL7Converter._get_additional_phones`: every phone except the first
(the first is already in PID-13). -/
def getAdditionalPhones (l : List ContactPoint) : String :=
  String.intercalate "~" ((phoneContacts l).drop 1)

/-- Gregorian leap-year test, as validated by Python `datetime`. -/
def isLeapYear (y : Nat) : Bool := (y % 4 == 0 && y % 100 != 0) || y % 400 == 0

/-- Days in a month, as validated by Python `datetime`. -/
def daysInMonth (y m : Nat) : Nat :=
  if m = 2 then (if isLeapYear y then 29 else 28)
  else if m = 4 ∨ m = 6 ∨ m = 9 ∨ m = 11 then 30
  else 31

/-- Python `datetime.strptime(s, "%Y-%m-%d")` as a partial parse: `%Y` is four
digits, `%m` and `%d` are one or two digits, and the day is validated against
the calendar. -/
def parseYMD (s : String) : Option (Nat × Nat × Nat) :=
  match splitOnChar '-' s with
  | [ys, ms, ds] =>
    if ys.data.length = 4 ∧ ys.data.all Char.isDigit
        ∧ (ms.data.length = 1 ∨ ms.data.length = 2) ∧ ms.data.all Char.isDigit
        ∧ (ds.data.length = 1 ∨ ds.data.length = 2) ∧ ds.data.all Char.isDigit then
      let y := natOfDigits ys.data
      let m := natOfDigits ms.data
      let d := natOfDigits ds.data
      if 1 ≤ y ∧ 1 ≤ m ∧ m ≤ 12 ∧ 1 ≤ d ∧ d ≤ daysInMonth y m then
        some (y, m, d)
      else none
    else none
  | _ => none

/-- PID-7 of the FHIR converter: parse `YYYY-MM-DD` and reformat with the fixed
local offset, or pass the unparsable text through; an empty or absent birth
date leaves the field unset. -/
def pid7val (p : Patient) : String :=
  let birthDate := p.birthDate.getD ""
  if birthDate = "" then ""
  else
    match parseYMD birthDate with
    | some (y, m, d) => pad4 y ++ pad2 m ++ pad2 d ++ "000000+1000"
    | none => birthDate

/-- PID-8 of the FHIR converter: uppercase the gender, map MALE and FEMALE to
their first letter, everything else to U. -/
def pid8val (p : Patient) : String :=
  let g := upperAscii (p.gender.getD "")
  if g = "MALE" ∨ g = "FEMALE" then String.mk (g.data.take 1) else "U"

/-- PID-5 as its five assigned components (family, given 1, given 2, unset,
title): at most the first two given names are used. -/
def buildPid5 : Option HumanName → List String
  | none => ["", "", "", "", ""]
  | some n =>
    let c2 := match n.given with | [] => "" | g1 :: _ => g1
    let c3 := match n.given with | _ :: g2 :: _ => g2 | _ => ""
    let c5 := match n.prefixes with | [] => "" | t :: _ => t
    [n.family.getD "", c2, c3, "", c5]

/-- PID-5 of the FHIR converter as a wire value. -/
def pid5val (p : Patient) : String :=
  String.intercalate "^" (buildPid5 (getPatientName p))

/-- PID-3 of the FHIR converter. -/
def pid3val (p : Patient) : String :=
  getPatientIdentifier p ++ "^^" ++ ihiSystem ++ "^Local"

/-- PID-11 from a resolved address: street lines joined, then city, state,
postal code, two empty parts, and the country defaulted to AU. -/
def pid11FromAddress : Option AddressEntry → String
  | none => ""
  | some a =>
    let linePart := if a.line.isEmpty then "" else String.intercalate "^" a.line
    String.intercalate "^"
      [linePart, a.city.getD "", a.state.getD "", a.postalCode.getD "", "", "",
       a.country.getD "AU"]

/-- PID-11 of the FHIR converter, built from the first address. -/
def pid11val (p : Patient) : String := pid11FromAddress (getPatientAddress p)

/-- PID-13 of the FHIR converter. -/
def pid13val (p : Patient) : String := formatTelecom p.telecom

/-- PID-14 of the FHIR converter. -/
def pid14val (p : Patient) : String := getAdditionalPhones p.telecom

/-- Constant from `FHIRToHL7Converter.__init__`. -/
def sendingApp : String := "FHIR Converter"

/-- Constant from `FHIRToHL7Converter.__init__`. -/
def sendingFacility : String := "FHIR System"

/-- Constant from `FHIRToHL7Converter.__init__`. -/
def receivingApp : String := "HL7 System"

/-- Constant from `FHIRToHL7Converter.__init__`. -/
def receivingFacility : String := "HL7 Facility"

/-- MSH-3 through MSH-12 as set by `_create_msh_segment` (MSH-7 is the clock,
MSH-10 the resolved patient identifier). -/
def mshFields (now : DateTime) (p : Patient) : List String :=
  [sendingApp, sendingFacility, receivingApp, receivingFacility,
   stampYmdHmsZ now, "", "ADT^A08", getPatientIdentifier p, "P",
   "2.3.1^AUS&&ISO^AS4700.2&&L"]

/-- EVN-1 through EVN-3 as set by `_create_evn_segment` (EVN-2 is the clock). -/
def evnFields (now : DateTime) : List String := ["A08", stampYmdHms now, ""]

/-- PID-1 through PID-16 as set by `_create_pid_segment`. -/
def pidFields (p : Patient) : List String :=
  ["1", "", pid3val p, "", pid5val p, "", pid7val p, pid8val p, "",
   "9^^NHDDV10-000001", pid11val p, "", pid13val p, pid14val p, "", "0"]

/-- PV1-1 through PV1-8 as set by `_create_pv1_segment`. -/
def pv1Fields : List String :=
  ["1", "N", "", "", "", "", "", "FHIR^Converter^System^^^Dr^^^AUSHICPR^L^^^UPIN"]

/-- The four segments the converter produces, as lists of field values. -/
structure HL7Msg where
  msh : List String
  evn : List String
  pid : List String
  pv1 : List String
deriving DecidableEq, Repr

/-- The structured result of `convert_patient`. -/
def msgOf (now : DateTime) (p : Patient) : HL7Msg :=
  ⟨mshFields now p, evnFields now, pidFields p, pv1Fields⟩

/-- Rendering of the four segments to the ER7 wire string (the role hl7apy's
`to_er7` plays for the source). -/
def toEr7 (m : HL7Msg) : String :=
  "MSH|^~\\&|" ++ String.intercalate "|" m.msh ++ "\r" ++
  "EVN|" ++ String.intercalate "|" m.evn ++ "\r" ++
  "PID|" ++ String.intercalate "|" m.pid ++ "\r" ++
  "PV1|" ++ String.intercalate "|" m.pv1 ++ "\r"

/-- `FHIRToHL7Converter.convert_patient` with the wall clock as an explicit input. -/
def convertPatient (now : DateTime) (p : Patient) : String := toEr7 (msgOf now p)

/-! ## `json_to_hl7_converter.py`: the flat practice-schema formatters -/

/-- `map_gender_code`: the dictionary lookup with default U. -/
def mapGenderCode (genderCode : Option Int) : String :=
  match genderCode with
  | none => "U"
  | some n =>
    if n = 1 then "M"
    else if n = 2 then "F"
    else if n = 3 then "O"
    else if n = 4 then "U"
    else "U"

/-- Render strftime `%z` for a possibly timezone-aware parse result. -/
def fmtTz : Option Int → String
  | none => ""
  | some off =>
    let sign := if off < 0 then "-" else "+"
    sign ++ pad2 (off.natAbs / 60) ++ pad2 (off.natAbs % 60)

/-- The strict `YYYY-MM-DD` date accepted by `datetime.fromisoformat`. -/
def parseIsoDate (s : String) : Option (Nat × Nat × Nat) :=
  match splitOnChar '-' s with
  | [ys, ms, ds] =>
    if ys.data.length = 4 ∧ ms.data.length = 2 ∧ ds.data.length = 2
        ∧ ys.data.all Char.isDigit ∧ ms.data.all Char.isDigit ∧ ds.data.all Char.isDigit then
      let y := natOfDigits ys.data
      let m := natOfDigits ms.data
      let d := natOfDigits ds.data
      if 1 ≤ y ∧ 1 ≤ m ∧ m ≤ 12 ∧ 1 ≤ d ∧ d ≤ daysInMonth y m then
        some (y, m, d)
      else none
    else none
  | _ => none

/-- The `HH:MM[:SS]` clock part of an ISO timestamp. -/
def parseClock (s : String) : Option (Nat × Nat × Nat) :=
  match splitOnChar ':' s with
  | [hs, ms] =>
    if hs.data.length = 2 ∧ ms.data.length = 2
        ∧ hs.data.all Char.isDigit ∧ ms.data.all Char.isDigit then
      let h := natOfDigits hs.data
      let mi := natOfDigits ms.data
      if h < 24 ∧ mi < 60 then some (h, mi, 0) else none
    else none
  | [hs, ms, ss] =>
    if hs.data.length = 2 ∧ ms.data.length = 2 ∧ ss.data.length = 2
        ∧ hs.data.all Char.isDigit ∧ ms.data.all Char.isDigit ∧ ss.data.all Char.isDigit then
      let h := natOfDigits hs.data
      let mi := natOfDigits ms.data
      let sec := natOfDigits ss.data
      if h < 24 ∧ mi < 60 ∧ sec < 60 then some (h, mi, sec) else none
    else none
  | _ => none

/-- Split a clock-and-offset text at a `+` or `-` offset sign, when present. -/
def splitOffset (t : String) : String × Option (Bool × String) :=
  match splitOnChar '+' t with
  | [a, b] => (a, some (true, b))
  | _ =>
    match splitOnChar '-' t with
    | [a, b] => (a, some (false, b))
    | _ => (t, none)

/-- The `HH:MM` numeric UTC offset of an ISO timestamp, in minutes. -/
def parseOffsetHM (s : String) : Option Nat :=
  match splitOnChar ':' s with
  | [hs, ms] =>
    if hs.data.length = 2 ∧ ms.data.length = 2
        ∧ hs.data.all Char.isDigit ∧ ms.data.all Char.isDigit then
      let h := natOfDigits hs.data
      let mi := natOfDigits ms.data
      if h < 24 ∧ mi < 60 then some (h * 60 + mi) else none
    else none
  | _ => none

/-- Python `datetime.fromisoformat` restricted to the shapes the converter
meets: a bare date, or a date with a `T` or space separator, an `HH:MM[:SS]`
clock, and an optional `±HH:MM` offset. -/
def parseIso (s : String) : Option (DateTime × Option Int) :=
  if s.data.length ≤ 10 then
    (parseIsoDate s).map (fun (y, m, d) => (⟨y, m, d, 0, 0, 0⟩, none))
  else
    match parseIsoDate (String.mk (s.data.take 10)) with
    | none => none
    | some (y, m, d) =>
      match s.data.drop 10 with
      | [] => none
      | sep :: timeChars =>
        if sep = 'T' ∨ sep = ' ' then
          let po := splitOffset (String.mk timeChars)
          match parseClock po.1 with
          | none => none
          | some (h, mi, sec) =>
            match po.2 with
            | none => some (⟨y, m, d, h, mi, sec⟩, none)
            | some (pos, offText) =>
              match parseOffsetHM offText with
              | none => none
              | some mins =>
                some (⟨y, m, d, h, mi, sec⟩,
                      some (if pos then (mins : Int) else -(mins : Int)))
        else none

/-- `format_hl7_datetime` of `json_to_hl7_converter.py`, with the wall clock
explicit: parse and reformat, or fall back to the current time. -/
def formatHl7Datetime (now : DateTime) (dateStr : String) : String :=
  let pre :=
    if dateStr.data.contains 'T' then String.mk (replaceChar 'Z' "+00:00".data dateStr.data)
    else dateStr
  match parseIso pre with
  | some (dt, tz) => stampYmdHms dt ++ fmtTz tz
  | none => stampYmdHmsZ now

/-- The date-of-birth field of `create_hl7_message` (flat schema): ISO parse
and reformat, or pass through with hyphens removed; empty stays empty. -/
def pid7Flat (dob : Option String) : String :=
  let d := dob.getD ""
  if d = "" then ""
  else
    match parseIso d with
    | some (dt, _) => stampYmdHms dt
    | none => String.mk (replaceChar '-' [] d.data)

/-- The administrative-sex field of `create_hl7_message` (flat schema). -/
def pid8Flat (genderCode : Option Int) : String := mapGenderCode genderCode

/-- The character filter of `format_phone_number`: digits and every plus sign. -/
def cleanPhone (s : String) : List Char :=
  s.toList.filter (fun c => c.isDigit || c == '+')

/-- The long (country and area code) phone layout of `format_phone_number`. -/
def phoneLong (rest : List Char) : String :=
  "^" ++ String.mk rest ++ "^PRN^PH^^61^61^" ++ String.mk rest

/-- The degraded phone layout of `format_phone_number`. -/
def phoneShort (cleaned : List Char) : String := "^" ++ String.mk cleaned ++ "^PRN^PH"

/-- `format_phone_number` of `json_to_hl7_converter.py`. -/
def formatPhoneNumber (phone : String) : String :=
  if phone = "" then ""
  else
    let cleaned := cleanPhone phone
    if ['+', '6', '1'].isPrefixOf cleaned then phoneLong (cleaned.drop 3)
    else if ['6', '1'].isPrefixOf cleaned ∧ cleaned.length > 10 then phoneLong (cleaned.drop 2)
    else if ['0'].isPrefixOf cleaned ∧ cleaned.length = 10 then phoneLong (cleaned.drop 1)
    else phoneShort cleaned

/-! ## JSON value model with Python dynamic-access semantics

`convert_patient` is additionally embedded over raw JSON values to settle the
malformed-record contract: the attribute, type, key and index errors that the
Python runtime raises on unexpectedly shaped values are modelled in the
`Except` monad. JSON numbers are restricted to integers; the converter never
computes with them. -/

/-- A JSON value as decoded from the input document. -/
inductive JVal where
  | null
  | bool (b : Bool)
  | num (n : Int)
  | str (s : String)
  | arr (elems : List JVal)
  | obj (entries : List (String × JVal))

/-- The Python runtime errors the converter can hit. -/
inductive PyErr where
  | attrError
  | typeError
  | keyError
  | indexError
deriving DecidableEq, Repr

/-- Python truthiness of a JSON-decoded value. -/
def truthy : JVal → Bool
  | .null => false
  | .bool b => b
  | .num n => !(n == 0)
  | .str s => !(s == "")
  | .arr elems => !elems.isEmpty
  | .obj entries => !entries.isEmpty

/-- Python `x.get(key, default)`: only mappings have a `get` attribute. -/
def pyGet (j : JVal) (key : String) (dflt : JVal) : Except PyErr JVal :=
  match j with
  | .obj entries => .ok ((entries.lookup key).getD dflt)
  | _ => .error .attrError

/-- Python `str(x)` as used by f-string interpolation of leaf values. -/
def pyStr : JVal → String
  | .null => "None"
  | .bool true => "True"
  | .bool false => "False"
  | .num n => toString n
  | .str s => s
  | .arr _ => "[...]"
  | .obj _ => "\x7b...\x7d"

/-- Python iteration `for x in j`: lists yield elements, strings characters,
mappings their keys; anything else raises `TypeError`. -/
def pyIter : JVal → Except PyErr (List JVal)
  | .arr elems => .ok elems
  | .str s => .ok (s.toList.map (fun c => .str (String.singleton c)))
  | .obj entries => .ok (entries.map (fun e => .str e.1))
  | _ => .error .typeError

/-- Python `j[0]` on JSON-decoded values: lists and strings index positionally,
mappings raise `KeyError` (their keys are strings), the rest `TypeError`. -/
def pyIndex0 : JVal → Except PyErr JVal
  | .arr (x :: _) => .ok x
  | .arr [] => .error .indexError
  | .str s =>
    match s.toList with
    | c :: _ => .ok (.str (String.singleton c))
    | [] => .error .indexError
  | .obj _ => .error .keyError
  | _ => .error .typeError

/-- Python `j[1]`, used for the second given name under a length guard. -/
def pyIndex1 : JVal → Except PyErr JVal
  | .arr (_ :: x :: _) => .ok x
  | .arr _ => .error .indexError
  | .str s =>
    match s.toList with
    | _ :: c :: _ => .ok (.str (String.singleton c))
    | _ => .error .indexError
  | .obj _ => .error .keyError
  | _ => .error .typeError

/-- Python `len(j)`: sized values only. -/
def pyLen : JVal → Except PyErr Nat
  | .arr elems => .ok elems.length
  | .str s => .ok s.length
  | .obj entries => .ok entries.length
  | _ => .error .typeError

/-- Python `j == "lit"` with a string literal: non-strings compare unequal. -/
def jEqStr (j : JVal) (lit : String) : Bool :=
  match j with
  | .str s => s == lit
  | _ => false

/-- Extract a list of strings, when every element is a string. -/
def strListOf : List JVal → Option (List String)
  | [] => some []
  | .str s :: rest => (strListOf rest).map (fun l => s :: l)
  | _ => none

/-- Python `'^'.join(j)`: every joined element must be a string; a string
argument joins its characters. -/
def pyJoinCaret (j : JVal) : Except PyErr String :=
  match j with
  | .arr elems =>
    match strListOf elems with
    | some l => .ok (String.intercalate "^" l)
    | none => .error .typeError
  | .str s => .ok (String.intercalate "^" (s.toList.map String.singleton))
  | _ => .error .typeError

/-- The `_get_patient_identifier` loop over raw JSON identifier entries. -/
def findIHIJ : List JVal → Except PyErr (Option JVal)
  | [] => .ok none
  | x :: rest => do
    let t ← pyGet x "type" (.obj [])
    let tx ← pyGet t "text" .null
    if jEqStr tx "IHI" then
      let v ← pyGet x "value" (.str "")
      pure (some v)
    else findIHIJ rest

/-- `_get_patient_identifier` over a raw JSON record. -/
def getPatientIdentifierJ (j : JVal) : Except PyErr JVal := do
  let ids ← pyGet j "identifier" (.arr [])
  let elems ← pyIter ids
  match ← findIHIJ elems with
  | some v => pure v
  | none =>
    if truthy ids then do
      let first ← pyIndex0 ids
      pyGet first "value" (.str "")
    else pyGet j "id" (.str "UNKNOWN")

/-- The `_get_patient_name` loop over raw JSON name entries. -/
def findUsualJ : List JVal → Except PyErr (Option JVal)
  | [] => .ok none
  | x :: rest => do
    let u ← pyGet x "use" .null
    if jEqStr u "usual" then pure (some x) else findUsualJ rest

/-- `_get_patient_name` over a raw JSON record. -/
def getPatientNameJ (j : JVal) : Except PyErr (Option JVal) := do
  let names ← pyGet j "name" (.arr [])
  if truthy names then do
    let elems ← pyIter names
    match ← findUsualJ elems with
    | some n => pure (some n)
    | none => do
      let first ← pyIndex0 names
      pure (some first)
  else pure none

/-- `_get_patient_address` over a raw JSON record. -/
def getPatientAddressJ (j : JVal) : Except PyErr (Option JVal) := do
  let addresses ← pyGet j "address" (.arr [])
  if truthy addresses then do
    let first ← pyIndex0 addresses
    pure (some first)
  else pure none

/-- `_map_telecom_use` over a raw JSON use value (dictionary lookup with
default PRN). -/
def mapTelecomUseJ (u : JVal) : String :=
  if jEqStr u "home" then "H"
  else if jEqStr u "work" then "W"
  else if jEqStr u "mobile" then "M"
  else if jEqStr u "temp" then "T"
  else if jEqStr u "old" then "O"
  else "PRN"

/-- The `_format_telecom` loop over raw JSON contacts: fetch system, value and
use, skip falsy values, format phone and email systems, drop the rest. -/
def fmtLoopJ : List JVal → Except PyErr (List String)
  | [] => .ok []
  | c :: rest => do
    let sys ← pyGet c "system" (.str "")
    let v ← pyGet c "value" (.str "")
    let u ← pyGet c "use" (.str "")
    let tail ← fmtLoopJ rest
    if !truthy v then pure tail
    else if jEqStr sys "phone" then
      pure ((pyStr v ++ "^" ++ mapTelecomUseJ u ++ "^PH^^61^07^" ++ pyStr v) :: tail)
    else if jEqStr sys "email" then
      pure ((pyStr v ++ "^NET^Internet^" ++ pyStr v) :: tail)
    else pure tail

/-- `_format_telecom` over a raw JSON telecom value. -/
def formatTelecomJ (tl : JVal) : Except PyErr String := do
  if !truthy tl then pure ""
  else do
    let elems ← pyIter tl
    let parts ← fmtLoopJ elems
    pure (String.intercalate "~" parts)

/-- The `_get_additional_phones` loop over raw JSON contacts. -/
def phonesLoopJ : List JVal → Except PyErr (List String)
  | [] => .ok []
  | c :: rest => do
    let sys ← pyGet c "system" .null
    if jEqStr sys "phone" then do
      let v0 ← pyGet c "value" .null
      if truthy v0 then do
        let u ← pyGet c "use" (.str "")
        let v ← pyGet c "value" (.str "")
        let tail ← phonesLoopJ rest
        pure ((pyStr v ++ "^" ++ mapTelecomUseJ u ++ "^PH^^61^07^" ++ pyStr v) :: tail)
      else phonesLoopJ rest
    else phonesLoopJ rest

/-- `_get_additional_phones` over a raw JSON telecom value. -/
def getAdditionalPhonesJ (tl : JVal) : Except PyErr String := do
  let elems ← pyIter tl
  let parts ← phonesLoopJ elems
  pure (String.intercalate "~" (parts.drop 1))

/-- The PID-5 components from a resolved raw JSON name (family, two given
names, an unset component, title), as assigned by `_create_pid_segment`. -/
def pid5FromNameJ : Option JVal → Except PyErr (List String)
  | none => .ok ["", "", "", "", ""]
  | some n => do
    let fam ← pyGet n "family" (.str "")
    let given ← pyGet n "given" (.arr [])
    let pair ←
      if truthy given then do
        let len ← pyLen given
        let c2 ← if len > 0 then do pure (pyStr (← pyIndex0 given)) else pure ""
        let c3 ← if len > 1 then do pure (pyStr (← pyIndex1 given)) else pure ""
        pure (c2, c3)
      else pure ("", "")
    let pr ← pyGet n "prefix" .null
    let c5 ← if truthy pr then do pure (pyStr (← pyIndex0 pr)) else pure ""
    pure [pyStr fam, pair.1, pair.2, "", c5]

/-- The PID-7 value from a raw JSON record: `strptime` raises `TypeError` on a
non-string truthy value, escaping the `except ValueError` handler. -/
def pid7J (j : JVal) : Except PyErr String := do
  let bd ← pyGet j "birthDate" (.str "")
  if truthy bd then
    match bd with
    | .str s =>
      match parseYMD s with
      | some (y, m, d) => pure (pad4 y ++ pad2 m ++ pad2 d ++ "000000+1000")
      | none => pure s
    | _ => .error .typeError
  else pure ""

/-- The PID-8 value from a raw JSON record: `.upper()` exists only on strings. -/
def pid8J (j : JVal) : Except PyErr String := do
  let g ← pyGet j "gender" (.str "")
  match g with
  | .str s =>
    let gu := upperAscii s
    pure (if gu = "MALE" ∨ gu = "FEMALE" then String.mk (gu.data.take 1) else "U")
  | _ => .error .attrError

/-- The PID-11 value from a resolved raw JSON address. -/
def pid11FromAddressJ : Option JVal → Except PyErr String
  | none => .ok ""
  | some a => do
    let ln ← pyGet a "line" .null
    let linePart ← if truthy ln then pyJoinCaret ln else pure ""
    let city ← pyGet a "city" (.str "")
    let st ← pyGet a "state" (.str "")
    let pc ← pyGet a "postalCode" (.str "")
    let country ← pyGet a "country" (.str "AU")
    pyJoinCaret (.arr [.str linePart, city, st, pc, .str "", .str "", country])

/-- PID-1 through PID-16 from a raw JSON record (`_create_pid_segment`). -/
def pidFieldsJ (j : JVal) : Except PyErr (List String) := do
  let pid ← getPatientIdentifierJ j
  let name ← getPatientNameJ j
  let c5list ← pid5FromNameJ name
  let p7 ← pid7J j
  let p8 ← pid8J j
  let addr ← getPatientAddressJ j
  let p11 ← pid11FromAddressJ addr
  let tl ← pyGet j "telecom" (.arr [])
  let p13 ← formatTelecomJ tl
  let tl2 ← pyGet j "telecom" (.arr [])
  let p14 ← getAdditionalPhonesJ tl2
  pure ["1", "", pyStr pid ++ "^^" ++ ihiSystem ++ "^Local", "",
        String.intercalate "^" c5list, "", p7, p8, "",
        "9^^NHDDV10-000001", p11, "", p13, p14, "", "0"]

/-- MSH-3 through MSH-12 from a raw JSON record (`_create_msh_segment`). -/
def mshFieldsJ (now : DateTime) (j : JVal) : Except PyErr (List String) := do
  let pid ← getPatientIdentifierJ j
  pure [sendingApp, sendingFacility, receivingApp, receivingFacility,
        stampYmdHmsZ now, "", "ADT^A08", pyStr pid, "P",
        "2.3.1^AUS&&ISO^AS4700.2&&L"]

/-- `convert_patient` over a raw JSON record with the wall clock explicit; the
surrounding try/except re-raises every runtime error as the conversion error,
so the error kind, not the message, is retained. -/
def convertPatientJ (now : DateTime) (j : JVal) : Except PyErr String := do
  let msh ← mshFieldsJ now j
  let pid ← pidFieldsJ j
  pure (toEr7 ⟨msh, evnFields now, pid, pv1Fields⟩)

/-- Whether a JSON value is a mapping. -/
def isObjJ : JVal → Bool
  | .obj _ => true
  | _ => false

/-- Encode an optional JSON value as at most one object entry: an absent field
has no entry at all. -/
def optEntryV (key : String) (v : Option JVal) : List (String × JVal) :=
  match v with
  | none => []
  | some j => [(key, j)]

/-- Encode an optional string field as at most one object entry. -/
def optEntry (key : String) (v : Option String) : List (String × JVal) :=
  optEntryV key (v.map JVal.str)

/-- A typed identifier entry as raw JSON. -/
def identifierToJ (i : IdentifierEntry) : JVal :=
  .obj (optEntryV "type" (i.typeText.map (fun t => JVal.obj [("text", JVal.str t)]))
        ++ optEntry "value" i.value)

/-- A typed name entry as raw JSON. -/
def nameToJ (n : HumanName) : JVal :=
  .obj (optEntry "use" n.use
        ++ (optEntry "family" n.family
            ++ [("given", JVal.arr (n.given.map JVal.str)),
                ("prefix", JVal.arr (n.prefixes.map JVal.str))]))

/-- A typed address entry as raw JSON. -/
def addressToJ (a : AddressEntry) : JVal :=
  .obj (("line", JVal.arr (a.line.map JVal.str))
        :: (optEntry "city" a.city
            ++ (optEntry "state" a.state
                ++ (optEntry "postalCode" a.postalCode
                    ++ optEntry "country" a.country))))

/-- A typed telecom entry as raw JSON. -/
def contactToJ (c : ContactPoint) : JVal :=
  .obj (optEntry "system" c.system
        ++ (optEntry "value" c.value ++ optEntry "use" c.use))

/-- A typed record as a raw JSON object: missing optional fields are omitted
entirely, so such a document exercises the missing-field defaults. -/
def patientToJ (p : Patient) : JVal :=
  .obj (optEntry "id" p.id
        ++ (("identifier", JVal.arr (p.identifier.map identifierToJ))
            :: ("name", JVal.arr (p.name.map nameToJ))
            :: (optEntry "birthDate" p.birthDate
                ++ (optEntry "gender" p.gender
                    ++ [("address", JVal.arr (p.address.map addressToJ)),
                        ("telecom", JVal.arr (p.telecom.map contactToJ))]))))

/-! ## ER7 message model and codec

Modelled from the spec: the repository delegates the in-memory message model
and its ER7 serialization to the hl7apy library, so the encoder, the escaping
of delimiter characters inside leaf text, and the symmetric decoder required
by the round-trip law are embedded here from the specification text (the data
model of its section 3, the encoder contract of its section 4.1, the standard
delimiter set pipe/caret/tilde/backslash/ampersand, carriage-return segment
terminators, and the standard three-character escape sequences). -/

/-- A sub-component: leaf text. -/
abbrev HSub := List Char

/-- A component: one or more sub-components. -/
abbrev HComp := List HSub

/-- A repetition: one or more components. -/
abbrev HRep := List HComp

/-- A field: one or more repetitions. -/
abbrev HField := List HRep

/-- A segment: a name plus its ordered fields. -/
structure HSegment where
  name : List Char
  fields : List HField
deriving DecidableEq, Repr

/-- A message: an ordered sequence of segments. -/
abbrev HMessage := List HSegment

/-- Modelled from the spec: escape one leaf character; the four delimiters and
the escape character become standard three-character escape sequences, all
other characters pass through. -/
def escapeChar (c : Char) : List Char :=
  if c = '|' then ['\\', 'F', '\\']
  else if c = '^' then ['\\', 'S', '\\']
  else if c = '~' then ['\\', 'R', '\\']
  else if c = '&' then ['\\', 'T', '\\']
  else if c = '\\' then ['\\', 'E', '\\']
  else [c]

/-- Escape a whole leaf. -/
def escapeText : List Char → List Char
  | [] => []
  | c :: rest => escapeChar c ++ escapeText rest

/-- Map an escape code letter back to the character it encodes. -/
def unescCode (c : Char) : Char :=
  if c = 'F' then '|'
  else if c = 'S' then '^'
  else if c = 'R' then '~'
  else if c = 'T' then '&'
  else if c = 'E' then '\\'
  else c

/-- Modelled from the spec: reverse the escaping exactly; text that is not
escaper output is passed through leniently. -/
def unescapeText : List Char → List Char
  | [] => []
  | [c] => [c]
  | [c, d] => [c, d]
  | c :: d :: e :: rest =>
    if c = '\\' && e = '\\' then unescCode d :: unescapeText rest
    else c :: unescapeText (d :: e :: rest)

/-- Modelled from the spec: encode a component (escaped sub-components joined
by the sub-component separator). -/
def encodeComp (c : HComp) : List Char := joinSep '&' (c.map escapeText)

/-- Modelled from the spec: encode a repetition (components joined by the
component separator). -/
def encodeRep (r : HRep) : List Char := joinSep '^' (r.map encodeComp)

/-- Modelled from the spec: encode a field (repetitions joined by the
repetition separator). -/
def encodeField (f : HField) : List Char := joinSep '~' (f.map encodeRep)

/-- Modelled from the spec: encode a segment (name and fields joined by the
field separator; empty fields keep their positions). -/
def encodeSeg (s : HSegment) : List Char :=
  joinSep '|' (s.name :: s.fields.map encodeField)

/-- Modelled from the spec: encode a message, each segment terminated by a
carriage return. -/
def encodeMsg : HMessage → List Char
  | [] => []
  | s :: rest => encodeSeg s ++ '\r' :: encodeMsg rest

/-- Modelled from the spec: decode a component. -/
def decodeComp (s : List Char) : HComp := (splitSep '&' s).map unescapeText

/-- Modelled from the spec: decode a repetition. -/
def decodeRep (s : List Char) : HRep := (splitSep '^' s).map decodeComp

/-- Modelled from the spec: decode a field. -/
def decodeField (s : List Char) : HField := (splitSep '~' s).map decodeRep

/-- Modelled from the spec: decode a segment (the text before the first field
separator is the name). -/
def decodeSeg (s : List Char) : HSegment :=
  match splitSep '|' s with
  | [] => ⟨[], []⟩
  | n :: fs => ⟨n, fs.map decodeField⟩

/-- Modelled from the spec: decode a message (carriage-return-terminated
segments). -/
def decodeMsg (s : List Char) : HMessage :=
  ((splitSep '\r' s).dropLast).map decodeSeg

/-- A valid segment name: a three-character uppercase alphanumeric code. -/
def validSegName (n : List Char) : Bool :=
  n.length == 3 && n.all (fun c => c.isUpper || c.isDigit)

/-- The one-or-more structure of the data model: a field has at least one
repetition, a repetition at least one component, a component at least one
sub-component. -/
def wfField (f : HField) : Bool :=
  !f.isEmpty && f.all (fun r => !r.isEmpty && r.all (fun c => !c.isEmpty))

/-- A well-formed segment: valid name and well-formed fields. -/
def wfSeg (s : HSegment) : Bool := validSegName s.name && s.fields.all wfField

/-- A well-formed message: at least the header segment, all segments
well-formed. -/
def wfMsg (m : HMessage) : Bool := !m.isEmpty && m.all wfSeg

/-- Whether every leaf of a message avoids the segment terminator. -/
def crFreeMsg (m : HMessage) : Bool :=
  m.all (fun seg =>
    seg.fields.all (fun f =>
      f.all (fun r => r.all (fun c => c.all (fun leaf => !leaf.contains '\r')))))

/-! ## Example inputs -/

/-- A record with every optional field missing. -/
def emptyPatient : Patient := ⟨none, [], [], none, none, [], []⟩

/-- A sample wall-clock value. -/
def clockA : DateTime := ⟨2024, 1, 1, 0, 0, 0⟩

/-- A second sample wall-clock value, one second later. -/
def clockB : DateTime := ⟨2024, 1, 1, 0, 0, 1⟩

/-- Blank out the two clock-derived fields (MSH-7 and EVN-2) of a message. -/
def scrubClock (m : HL7Msg) : HL7Msg :=
  { m with msh := m.msh.set 4 "", evn := m.evn.set 1 "" }

/-- A telecom list with two phone contacts. -/
def telecomTwoPhones : List ContactPoint :=
  [⟨some "phone", some "1", none⟩, ⟨some "phone", some "2", none⟩]

/-- A one-segment message whose single leaf contains a carriage return. -/
def crLeafMsg : HMessage := [⟨['M', 'S', 'H'], [[[[['a', '\r', 'b']]]]]⟩]

/-- A one-segment message whose first leaf contains all four delimiters and
the escape character, plus a second field with two repetitions. -/
def delimLeafMsg : HMessage :=
  [⟨['M', 'S', 'H'],
    [[[[['a', '|', 'b', '^', 'c', '~', 'd', '&', 'e', '\\', 'f']]]],
     [[[['x']]], [[['y']]]]]⟩]

/-! ## Generic list lemmas -/

theorem find?_eq_filter_head? {α : Type} (p : α → Bool) :
    ∀ l : List α, l.find? p = (l.filter p).head?
  | [] => rfl
  | a :: l => by
    cases h : p a
    · rw [List.find?_cons_of_neg, List.filter_cons_of_neg]
      · exact find?_eq_filter_head? p l
      · simp [h]
      · simp [h]
    · rw [List.find?_cons_of_pos, List.filter_cons_of_pos]
      · rfl
      · exact h
      · exact h

/-! ## Claim C1: identifier selection policy -/

/-- C1: the resolved patient identifier is the value of the first identifier
whose declared type is IHI when one exists; otherwise the value of the first
identifier in list order; otherwise, when the identifier list is empty, the
record's own id; and when that too is absent, the sentinel UNKNOWN. The
resolved identifier is used both as MSH-10 (the control id) and inside PID-3.
For the identifier list MRN=1, IHI=2 the resolved identifier is 2. -/
theorem C1_identifier_policy :
    (∀ p i, p.identifier.find? isIHI = some i →
      getPatientIdentifier p = i.value.getD "")
  ∧ (∀ p i rest, p.identifier.find? isIHI = none → p.identifier = i :: rest →
      getPatientIdentifier p = i.value.getD "")
  ∧ (∀ p s, p.identifier = [] → p.id = some s → getPatientIdentifier p = s)
  ∧ (∀ p, p.identifier = [] → p.id = none → getPatientIdentifier p = "UNKNOWN")
  ∧ (∀ now p, (mshFields now p)[7]? = some (getPatientIdentifier p))
  ∧ (∀ p, pid3val p = getPatientIdentifier p ++ "^^" ++ ihiSystem ++ "^Local")
  ∧ getPatientIdentifier
      { emptyPatient with identifier := [⟨some "MRN", some "1"⟩, ⟨some "IHI", some "2"⟩] }
      = "2" := by
  refine ⟨?_, ?_, ?_, ?_, ?_, ?_, ?_⟩
  · intro p i h
    simp [getPatientIdentifier, h]
  · intro p i rest h1 h2
    simp only [getPatientIdentifier, h1]
    rw [h2]
  · intro p s h1 h2
    simp [getPatientIdentifier, h1, h2]
  · intro p h1 h2
    simp [getPatientIdentifier, h1, h2]
  · intro now p
    rfl
  · intro p
    rfl
  · rfl

/-- C1 witness: the fallback branches at concrete inputs. -/
theorem C1_identifier_policy_witness :
    getPatientIdentifier { emptyPatient with identifier := [⟨some "MRN", some "1"⟩] } = "1"
  ∧ getPatientIdentifier emptyPatient = "UNKNOWN" :=
  ⟨C1_identifier_policy.2.1 _ ⟨some "MRN", some "1"⟩ [] (by decide) rfl,
   C1_identifier_policy.2.2.2.1 emptyPatient rfl rfl⟩

/-! ## Claim C2: determinism -/

/-- C2 counterexample: converting the same record at two different wall-clock
instants yields different wire strings, so the conversion is not a function of
the record alone. -/
theorem C2_determinism_counterexample :
    convertPatient clockA emptyPatient ≠ convertPatient clockB emptyPatient := by
  decide

/-- C2 amended: the conversion is a deterministic function of the record and
the current wall-clock time; the clock feeds exactly the MSH-7 and EVN-2
timestamp fields, and every other field depends on the record alone. -/
theorem C2_determinism_amended :
    ∀ (p : Patient) (t1 t2 : DateTime),
      convertPatient t1 p = toEr7 (msgOf t1 p)
    ∧ scrubClock (msgOf t1 p) = scrubClock (msgOf t2 p) :=
  fun _ _ _ => ⟨rfl, rfl⟩

/-! ## Claim C4: administrative-sex mapping -/

/-- C4 counterexample: in the flat practice schema, the administrative-sex
code 3 (other) is written as O, not U, although it matches neither male nor
female. -/
theorem C4_sex_mapping_counterexample :
    pid8Flat (some 3) = "O" ∧ "O" ≠ "U" := by decide

/-- C4 amended: for the FHIR shape the sex written to PID-8 is M when the
gender matches male case-insensitively, F for female, and U in every other
case including absence; for the flat shape the numeric code maps 1 to M, 2 to
F, 4 to U and anything unrecognized (including absence) to U, except that
code 3 (other) maps to O. -/
theorem C4_sex_mapping_amended :
    (∀ p g, p.gender = some g → upperAscii g = "MALE" → pid8val p = "M")
  ∧ (∀ p g, p.gender = some g → upperAscii g = "FEMALE" → pid8val p = "F")
  ∧ (∀ p, upperAscii (p.gender.getD "") ≠ "MALE" →
      upperAscii (p.gender.getD "") ≠ "FEMALE" → pid8val p = "U")
  ∧ (∀ p, p.gender = none → pid8val p = "U")
  ∧ pid8Flat (some 1) = "M" ∧ pid8Flat (some 2) = "F" ∧ pid8Flat (some 4) = "U"
  ∧ pid8Flat none = "U"
  ∧ (∀ n : Int, n ≠ 1 → n ≠ 2 → n ≠ 3 → n ≠ 4 → pid8Flat (some n) = "U") := by
  refine ⟨?_, ?_, ?_, ?_, by decide, by decide, by decide, by decide, ?_⟩
  · intro p g h1 h2
    simp only [pid8val, h1, Option.getD_some]
    rw [h2]
    decide
  · intro p g h1 h2
    simp only [pid8val, h1, Option.getD_some]
    rw [h2]
    decide
  · intro p h1 h2
    simp only [pid8val]
    rw [if_neg (by tauto)]
  · intro p h
    simp only [pid8val, h, Option.getD_none]
    decide
  · intro n h1 h2 h3 h4
    simp [pid8Flat, mapGenderCode, h1, h2, h3, h4]

/-- C4 witness: a mixed-case gender maps to M, an unrecognized flat code to U. -/
theorem C4_sex_mapping_witness :
    pid8val { emptyPatient with gender := some "mAlE" } = "M"
  ∧ pid8Flat (some 7) = "U" :=
  ⟨C4_sex_mapping_amended.1 _ "mAlE" rfl (by decide),

   C4_sex_mapping_amended.2.2.2.2.2.2.2.2 7 (by decide) (by decide) (by decide) (by decide)⟩

/-! ## Claim C6: birth-date fallback -/

/-- C6 counterexample: in the flat practice schema the unparsable birth date
not-a-date is written with its hyphens removed, not passed through
unmodified. -/
theorem C6_birthdate_fallback_counterexample :
    pid7Flat (some "not-a-date") = "notadate" ∧ "notadate" ≠ "not-a-date" := by
  decide

/-- C6 amended: an unparsable birth date never raises; the FHIR converter
passes it into PID-7 unmodified, while the flat converter passes it through
with hyphens removed; in contrast, the header and event timestamp formatter
substitutes the current system time on parse failure. -/
theorem C6_birthdate_fallback_amended :
    (∀ p s, p.birthDate = some s → s ≠ "" → parseYMD s = none → pid7val p = s)
  ∧ (∀ s, s ≠ "" → parseIso s = none →
      pid7Flat (some s) = String.mk (replaceChar '-' [] s.data))
  ∧ (∀ now s, s.data.contains 'T' = false → parseIso s = none →
      formatHl7Datetime now s = stampYmdHmsZ now) := by
  refine ⟨?_, ?_, ?_⟩
  · intro p s h1 h2 h3
    simp [pid7val, h1, h2, h3]
  · intro s h1 h2
    simp [pid7Flat, h1, h2]
  · intro now s h1 h2
    have h3 : 'T' ∉ s.data := by simpa using h1
    simp [formatHl7Datetime, h3, h2]

/-- C6 witness: the three fallbacks at concrete inputs. -/
theorem C6_birthdate_fallback_witness :
    pid7val { emptyPatient with birthDate := some "not-a-date" } = "not-a-date"
  ∧ pid7Flat (some "not-a-date") = "notadate"
  ∧ formatHl7Datetime clockA "garbage" = stampYmdHmsZ clockA :=
  ⟨C6_birthdate_fallback_amended.1 _ "not-a-date" rfl (by decide) (by decide),
   C6_birthdate_fallback_amended.2.1 "not-a-date" (by decide) (by decide),
   C6_birthdate_fallback_amended.2.2 clockA "garbage" (by decide) (by decide)⟩

/-! ## Claim C7: name selection policy -/

/-- C7: the resolved name is the first entry flagged usual if any exists, else
the first entry; with no names all five PID-5 components are empty; at most
the first two given names are kept (a record keeps the same PID-5 after its
given names are truncated to two, and the first two given names land in
components 2 and 3); for the list old-Smith, usual-Jones the resolved family
name is Jones. -/
theorem C7_name_policy :
    (∀ p, getPatientName p = (((p.name.filter isUsual).head?).or p.name.head?))
  ∧ (∀ p, p.name = [] → pid5val p = "^^^^")
  ∧ (∀ n, buildPid5 (some n) = buildPid5 (some { n with given := n.given.take 2 }))
  ∧ (∀ n g1 g2 rest, n.given = g1 :: g2 :: rest →
      (buildPid5 (some n))[1]? = some g1 ∧ (buildPid5 (some n))[2]? = some g2)
  ∧ ((getPatientName
        { emptyPatient with
          name := [⟨some "old", some "Smith", [], []⟩, ⟨some "usual", some "Jones", [], []⟩] }).map
      (fun n => n.family.getD "") = some "Jones") := by
  refine ⟨?_, ?_, ?_, ?_, by decide⟩
  · intro p
    cases hn : p.name with
    | nil => simp [getPatientName, hn]
    | cons n rest =>
      simp only [getPatientName, hn]
      rw [find?_eq_filter_head?]
      cases hf : ((n :: rest).filter isUsual).head? with
      | none => simp
      | some u => simp
  · intro p h
    simp [pid5val, getPatientName, h, buildPid5]
    rfl
  · intro n
    cases hg : n.given with
    | nil => simp [buildPid5, hg]
    | cons g1 tail =>
      cases tail with
      | nil => simp [buildPid5, hg]
      | cons g2 tail2 => simp [buildPid5, hg]
  · intro n g1 g2 rest h
    simp [buildPid5, h]

/-- C7 witness: the given-name components at a concrete three-given record. -/
theorem C7_name_policy_witness :
    (buildPid5 (some ⟨none, some "Doe", ["A", "B", "C"], []⟩))[1]? = some "A"
  ∧ (buildPid5 (some ⟨none, some "Doe", ["A", "B", "C"], []⟩))[2]? = some "B" :=
  C7_name_policy.2.2.2.1 ⟨none, some "Doe", ["A", "B", "C"], []⟩ "A" "B" ["C"] rfl

/-! ## Claim C3: telecom field layout -/

theorem formattedContacts_eq_filterMap (l : List ContactPoint) :
    formattedContacts l = l.filterMap fmtContact := by
  induction l with
  | nil => rfl
  | cons c rest ih =>
    simp only [formattedContacts, List.filterMap_cons]
    cases fmtContact c <;> simp [ih]

theorem phoneContacts_eq_formatted_filter (l : List ContactPoint) :
    phoneContacts l = formattedContacts (l.filter (fun c => c.system == some "phone")) := by
  induction l with
  | nil => rfl
  | cons c rest ih =>
    by_cases hs : c.system = some "phone"
    · by_cases hv : (c.value.getD "") = ""
      · simp [phoneContacts, isPhoneWithValue, hs, hv, List.filter_cons,
          formattedContacts, fmtContact, ih]
      · simp [phoneContacts, isPhoneWithValue, hs, hv, List.filter_cons,
          formattedContacts, fmtContact, ih, phoneEntry]
    · simp [phoneContacts, isPhoneWithValue, hs, List.filter_cons, ih]

theorem mem_phoneContacts_mem_formatted (l : List ContactPoint) (x : String)
    (h : x ∈ phoneContacts l) : x ∈ formattedContacts l := by
  rw [phoneContacts_eq_formatted_filter] at h
  rw [formattedContacts_eq_filterMap] at h ⊢
  exact (List.Sublist.filterMap fmtContact (List.filter_sublist l)).subset h

/-- C3 counterexample: with two phone contacts, PID-13 holds both formatted
phones, not only the first formatted contact. -/
theorem C3_telecom_layout_counterexample :
    pid13val { emptyPatient with telecom := telecomTwoPhones }
      = "1^PRN^PH^^61^07^1~2^PRN^PH^^61^07^2"
  ∧ pid13val { emptyPatient with telecom := telecomTwoPhones }
      ≠ "1^PRN^PH^^61^07^1" := by
  decide

/-- C3 amended: PID-13 holds every recognized contact (non-empty value, phone
or email system) formatted in source order, the first contact first and email
contacts kept in position; PID-14 holds every phone contact except the first;
consequently each phone after the first appears in both fields. -/
theorem C3_telecom_layout_amended :
    (∀ p, pid13val p = formatTelecom p.telecom ∧ pid14val p = getAdditionalPhones p.telecom)
  ∧ (∀ l, formattedContacts l = l.filterMap fmtContact)
  ∧ (∀ l, phoneContacts l = formattedContacts (l.filter (fun c => c.system == some "phone")))
  ∧ (∀ l, getAdditionalPhones l = String.intercalate "~" ((phoneContacts l).drop 1))
  ∧ (∀ l x, x ∈ phoneContacts l → x ∈ formattedContacts l) :=
  ⟨fun _ => ⟨rfl, rfl⟩,
   formattedContacts_eq_filterMap,
   phoneContacts_eq_formatted_filter,
   fun _ => rfl,
   mem_phoneContacts_mem_formatted⟩

/-- C3 witness: the second phone of a two-phone list is a PID-14 entry and
also appears among the PID-13 repetitions. -/
theorem C3_telecom_layout_witness :
    "2^PRN^PH^^61^07^2" ∈ formattedContacts telecomTwoPhones :=
  C3_telecom_layout_amended.2.2.2.2 telecomTwoPhones _ (by decide)

/-! ## Claims C5 and C10: phone normalization -/

theorem mk_ne_empty {l : List Char} (h : l ≠ []) : String.mk l ≠ "" := by
  intro he
  exact h (congrArg String.data he)

theorem formatPhoneNumber_branches (s : String) (h : s ≠ "") :
    formatPhoneNumber s =
      (if ['+', '6', '1'].isPrefixOf (cleanPhone s) then phoneLong ((cleanPhone s).drop 3)
       else if ['6', '1'].isPrefixOf (cleanPhone s) ∧ (cleanPhone s).length > 10 then
         phoneLong ((cleanPhone s).drop 2)
       else if ['0'].isPrefixOf (cleanPhone s) ∧ (cleanPhone s).length = 10 then
         phoneLong ((cleanPhone s).drop 1)
       else phoneShort (cleanPhone s)) := by
  simp [formatPhoneNumber, h]

theorem cleanPhone_mk_kept (l : List Char)
    (h : ∀ c ∈ l, (c.isDigit || c == '+') = true) :
    cleanPhone (String.mk l) = l := by
  simpa [cleanPhone, String.toList] using List.filter_eq_self.mpr h

/-- C5 counterexample: the input +1234 matches none of the recognized shapes,
and the formatter emits the retained plus sign in the degraded layout, so the
pass-through is not digits-only. -/
theorem C5_phone_equivalence_counterexample :
    formatPhoneNumber "+1234" = "^+1234^PRN^PH"
  ∧ formatPhoneNumber "+1234" ≠ "^1234^PRN^PH"
  ∧ '+' ∈ (formatPhoneNumber "+1234").data := by
  decide

/-- C5 amended: for every nine-digit national-significant number, the domestic
trunk form, the bare country-code form and the plus-prefixed form all
normalize to the identical canonical output; every non-empty input matching
none of the recognized shapes is never rejected and passes through as its
cleaned form, digits plus any retained plus signs, in the degraded layout
(digits-only whenever the input has no interior plus sign). -/
theorem C5_phone_equivalence_amended :
    (∀ d : List Char, d.all Char.isDigit = true → d.length = 9 →
        formatPhoneNumber (String.mk ('0' :: d)) = phoneLong d
      ∧ formatPhoneNumber (String.mk ('6' :: '1' :: d)) = phoneLong d
      ∧ formatPhoneNumber (String.mk ('+' :: '6' :: '1' :: d)) = phoneLong d)
  ∧ (∀ s, s ≠ "" →
        ['+', '6', '1'].isPrefixOf (cleanPhone s) = false →
        (¬ (['6', '1'].isPrefixOf (cleanPhone s) ∧ (cleanPhone s).length > 10)) →
        (¬ (['0'].isPrefixOf (cleanPhone s) ∧ (cleanPhone s).length = 10)) →
        formatPhoneNumber s = phoneShort (cleanPhone s)) := by
  constructor
  · intro d hall hlen
    have hd : ∀ c ∈ d, (c.isDigit || c == '+') = true := by
      intro c hc
      simp [List.all_eq_true.mp hall c hc]
    have h0 : ∀ c ∈ ('0' :: d), (c.isDigit || c == '+') = true := by
      intro c hc
      rcases List.mem_cons.mp hc with rfl | hc
      · decide
      · exact hd c hc
    have h61 : ∀ c ∈ ('6' :: '1' :: d), (c.isDigit || c == '+') = true := by
      intro c hc
      rcases List.mem_cons.mp hc with rfl | hc
      · decide
      · rcases List.mem_cons.mp hc with rfl | hc
        · decide
        · exact hd c hc
    have hp61 : ∀ c ∈ ('+' :: '6' :: '1' :: d), (c.isDigit || c == '+') = true := by
      intro c hc
      rcases List.mem_cons.mp hc with rfl | hc
      · decide
      · exact h61 c hc
    refine ⟨?_, ?_, ?_⟩
    · rw [formatPhoneNumber_branches _ (mk_ne_empty (by simp)), cleanPhone_mk_kept _ h0]
      simp [List.isPrefixOf, hlen]
    · rw [formatPhoneNumber_branches _ (mk_ne_empty (by simp)), cleanPhone_mk_kept _ h61]
      simp [List.isPrefixOf, hlen]
    · rw [formatPhoneNumber_branches _ (mk_ne_empty (by simp)), cleanPhone_mk_kept _ hp61]
      simp [List.isPrefixOf]
  · intro s h1 h2 h3 h4
    rw [formatPhoneNumber_branches s h1, if_neg (by simp [h2]), if_neg h3, if_neg h4]

/-- C5 witness: the three claimed shapes of 0412345678 agree, and +1234 takes
the degraded layout. -/
theorem C5_phone_equivalence_witness :
    formatPhoneNumber (String.mk ('0' :: "412345678".data)) = phoneLong "412345678".data
  ∧ formatPhoneNumber (String.mk ('6' :: '1' :: "412345678".data)) = phoneLong "412345678".data
  ∧ formatPhoneNumber (String.mk ('+' :: '6' :: '1' :: "412345678".data)) = phoneLong "412345678".data
  ∧ formatPhoneNumber "+1234" = phoneShort (cleanPhone "+1234") :=
  ⟨(C5_phone_equivalence_amended.1 "412345678".data (by decide) (by decide)).1,
   (C5_phone_equivalence_amended.1 "412345678".data (by decide) (by decide)).2.1,
   (C5_phone_equivalence_amended.1 "412345678".data (by decide) (by decide)).2.2,
   C5_phone_equivalence_amended.2 "+1234" (by decide) (by decide) (by decide) (by decide)⟩

/-- C10 counterexample: stripping 04+12345678 to digits plus a leading plus
would give the ten-character 0412345678, whose trunk zero the claim says is
stripped into the long layout; the code keeps the interior plus during
cleaning, so the input takes the degraded branch instead. -/
theorem C10_phone_boundary_counterexample :
    formatPhoneNumber "04+12345678" = "^04+12345678^PRN^PH"
  ∧ formatPhoneNumber "04+12345678" ≠ "^412345678^PRN^PH^^61^61^412345678" := by
  decide

/-- C10 amended: with cleaning that retains every plus sign (not only a
leading one), the boundary conditions hold as stated: a +61 prefix of the
cleaned text is always replaced by the remainder; a bare 61 prefix is
stripped exactly when the cleaned text is longer than ten characters; a
leading 0 is stripped exactly when the cleaned text is ten characters long;
every other cleaned text is emitted as-is in the short degraded layout. -/
theorem C10_phone_boundary_amended :
    ∀ s, s ≠ "" →
    (['+', '6', '1'].isPrefixOf (cleanPhone s) = true →
       formatPhoneNumber s = phoneLong ((cleanPhone s).drop 3))
  ∧ (['+', '6', '1'].isPrefixOf (cleanPhone s) = false →
     ['6', '1'].isPrefixOf (cleanPhone s) = true → (cleanPhone s).length > 10 →
       formatPhoneNumber s = phoneLong ((cleanPhone s).drop 2))
  ∧ (['6', '1'].isPrefixOf (cleanPhone s) = true → (cleanPhone s).length ≤ 10 →
       formatPhoneNumber s = phoneShort (cleanPhone s))
  ∧ (['0'].isPrefixOf (cleanPhone s) = true → (cleanPhone s).length = 10 →
       formatPhoneNumber s = phoneLong ((cleanPhone s).drop 1))
  ∧ (['0'].isPrefixOf (cleanPhone s) = true → (cleanPhone s).length ≠ 10 →
       formatPhoneNumber s = phoneShort (cleanPhone s))
  ∧ (['+', '6', '1'].isPrefixOf (cleanPhone s) = false →
     ['6', '1'].isPrefixOf (cleanPhone s) = false →
     ['0'].isPrefixOf (cleanPhone s) = false →
       formatPhoneNumber s = phoneShort (cleanPhone s)) := by
  intro s hne
  refine ⟨?_, ?_, ?_, ?_, ?_, ?_⟩
  · intro h
    rw [formatPhoneNumber_branches s hne, if_pos h]
  · intro h1 h2 h3
    rw [formatPhoneNumber_branches s hne, if_neg (by simp [h1]), if_pos ⟨h2, h3⟩]
  · intro h1 h2
    obtain ⟨t, ht⟩ := List.isPrefixOf_iff_prefix.mp h1
    rw [formatPhoneNumber_branches s hne]
    rw [if_neg, if_neg, if_neg]
    · rw [← ht]
      simp [List.isPrefixOf]
    · rintro ⟨h61, hlen⟩
      omega
    · rw [← ht]
      simp [List.isPrefixOf]
  · intro h1 h2
    obtain ⟨t, ht⟩ := List.isPrefixOf_iff_prefix.mp h1
    rw [formatPhoneNumber_branches s hne]
    rw [if_neg, if_neg, if_pos ⟨h1, h2⟩]
    · rintro ⟨h61, hlen⟩
      rw [← ht] at h61
      simp [List.isPrefixOf] at h61
    · rw [← ht]
      simp [List.isPrefixOf]
  · intro h1 h2
    obtain ⟨t, ht⟩ := List.isPrefixOf_iff_prefix.mp h1
    rw [formatPhoneNumber_branches s hne]
    rw [if_neg, if_neg, if_neg]
    · rintro ⟨h0, hlen⟩
      exact h2 hlen
    · rintro ⟨h61, hlen⟩
      rw [← ht] at h61
      simp [List.isPrefixOf] at h61
    · rw [← ht]
      simp [List.isPrefixOf]
  · intro h1 h2 h3
    rw [formatPhoneNumber_branches s hne,
      if_neg (by simp [h1]), if_neg (by simp [h2]), if_neg (by simp [h3])]

/-- C10 witness: the claim's own boundary examples, a ten-character cleaned
text starting with 61 and an eleven-digit cleaned text starting with 0, both
take the degraded branch. -/
theorem C10_phone_boundary_witness :
    formatPhoneNumber "6123456789" = phoneShort (cleanPhone "6123456789")
  ∧ formatPhoneNumber "04123456789" = phoneShort (cleanPhone "04123456789") :=
  ⟨(C10_phone_boundary_amended "6123456789" (by decide)).2.2.1 (by decide) (by decide),
   (C10_phone_boundary_amended "04123456789" (by decide)).2.2.2.2.1 (by decide) (by decide)⟩

/-! ## Claim C8: normalizer error contract

The bridge lemmas below evaluate the raw-JSON embedding on the image of a
typed record and show it agrees with the typed embedding, which settles the
success half of the contract; the failure half is settled by direct case
analysis on non-mapping values. -/

theorem lookup_optEntryV_self (k : String) (v : Option JVal) (rest : List (String × JVal)) :
    ((optEntryV k v ++ rest).lookup k) =
      (match v with
       | some j => some j
       | none => rest.lookup k) := by
  cases v <;> simp [optEntryV, List.lookup]

theorem lookup_optEntryV_ne (k k2 : String) (v : Option JVal) (rest : List (String × JVal))
    (h : (k2 == k) = false) :
    ((optEntryV k v ++ rest).lookup k2) = rest.lookup k2 := by
  cases v <;> simp [optEntryV, List.lookup, h]

theorem lookup_cons_self (k : String) (x : JVal) (rest : List (String × JVal)) :
    (((k, x) :: rest).lookup k) = some x := by
  simp [List.lookup]

theorem lookup_cons_ne (k k2 : String) (x : JVal) (rest : List (String × JVal))
    (h : (k2 == k) = false) :
    (((k, x) :: rest).lookup k2) = rest.lookup k2 := by
  simp [List.lookup, h]

theorem pyGet_patientToJ_id (p : Patient) (d : JVal) :
    pyGet (patientToJ p) "id" d = .ok ((p.id.map JVal.str).getD d) := by
  simp only [patientToJ, pyGet, optEntry]
  rw [lookup_optEntryV_self]
  cases p.id with
  | some s => rfl
  | none =>
    rw [lookup_cons_ne _ _ _ _ (by decide), lookup_cons_ne _ _ _ _ (by decide),
      lookup_optEntryV_ne _ _ _ _ (by decide), lookup_optEntryV_ne _ _ _ _ (by decide),
      lookup_cons_ne _ _ _ _ (by decide), lookup_cons_ne _ _ _ _ (by decide)]
    rfl

theorem pyGet_patientToJ_identifier (p : Patient) (d : JVal) :
    pyGet (patientToJ p) "identifier" d = .ok (.arr (p.identifier.map identifierToJ)) := by
  simp only [patientToJ, pyGet, optEntry]
  rw [lookup_optEntryV_ne _ _ _ _ (by decide), lookup_cons_self]
  rfl

theorem pyGet_patientToJ_name (p : Patient) (d : JVal) :
    pyGet (patientToJ p) "name" d = .ok (.arr (p.name.map nameToJ)) := by
  simp only [patientToJ, pyGet, optEntry]
  rw [lookup_optEntryV_ne _ _ _ _ (by decide), lookup_cons_ne _ _ _ _ (by decide),
    lookup_cons_self]
  rfl

theorem pyGet_patientToJ_birthDate (p : Patient) (d : JVal) :
    pyGet (patientToJ p) "birthDate" d = .ok ((p.birthDate.map JVal.str).getD d) := by
  simp only [patientToJ, pyGet, optEntry]
  rw [lookup_optEntryV_ne _ _ _ _ (by decide), lookup_cons_ne _ _ _ _ (by decide),
    lookup_cons_ne _ _ _ _ (by decide), lookup_optEntryV_self]
  cases p.birthDate with
  | some s => rfl
  | none =>
    rw [lookup_optEntryV_ne _ _ _ _ (by decide), lookup_cons_ne _ _ _ _ (by decide),
      lookup_cons_ne _ _ _ _ (by decide)]
    rfl

theorem pyGet_patientToJ_gender (p : Patient) (d : JVal) :
    pyGet (patientToJ p) "gender" d = .ok ((p.gender.map JVal.str).getD d) := by
  simp only [patientToJ, pyGet, optEntry]
  rw [lookup_optEntryV_ne _ _ _ _ (by decide), lookup_cons_ne _ _ _ _ (by decide),
    lookup_cons_ne _ _ _ _ (by decide), lookup_optEntryV_ne _ _ _ _ (by decide),
    lookup_optEntryV_self]
  cases p.gender with
  | some s => rfl
  | none =>
    rw [lookup_cons_ne _ _ _ _ (by decide), lookup_cons_ne _ _ _ _ (by decide)]
    rfl

theorem pyGet_patientToJ_address (p : Patient) (d : JVal) :
    pyGet (patientToJ p) "address" d = .ok (.arr (p.address.map addressToJ)) := by
  simp only [patientToJ, pyGet, optEntry]
  rw [lookup_optEntryV_ne _ _ _ _ (by decide), lookup_cons_ne _ _ _ _ (by decide),
    lookup_cons_ne _ _ _ _ (by decide), lookup_optEntryV_ne _ _ _ _ (by decide),
    lookup_optEntryV_ne _ _ _ _ (by decide), lookup_cons_self]
  rfl

theorem pyGet_patientToJ_telecom (p : Patient) (d : JVal) :
    pyGet (patientToJ p) "telecom" d = .ok (.arr (p.telecom.map contactToJ)) := by
  simp only [patientToJ, pyGet, optEntry]
  rw [lookup_optEntryV_ne _ _ _ _ (by decide), lookup_cons_ne _ _ _ _ (by decide),
    lookup_cons_ne _ _ _ _ (by decide), lookup_optEntryV_ne _ _ _ _ (by decide),
    lookup_optEntryV_ne _ _ _ _ (by decide), lookup_cons_ne _ _ _ _ (by decide),
    lookup_cons_self]
  rfl

theorem bind_ok_py {α β : Type} (a : α) (f : α → Except PyErr β) :
    (Except.ok a >>= f) = f a := rfl

theorem bind_error_py {α β : Type} (e : PyErr) (f : α → Except PyErr β) :
    ((Except.error e : Except PyErr α) >>= f) = Except.error e := rfl

theorem pure_ok {α : Type} (a : α) : (pure a : Except PyErr α) = .ok a := rfl

theorem pyGet_identifierToJ_value (i : IdentifierEntry) :
    pyGet (identifierToJ i) "value" (.str "") = .ok (.str (i.value.getD "")) := by
  obtain ⟨tt, v⟩ := i
  cases tt <;> cases v <;> rfl

theorem findIHIJ_map (l : List IdentifierEntry) :
    findIHIJ (l.map identifierToJ) =
      .ok ((l.find? isIHI).map (fun i => JVal.str (i.value.getD ""))) := by
  induction l with
  | nil => rfl
  | cons i rest ih =>
    obtain ⟨tt, v⟩ := i
    cases tt with
    | none =>
      have hn : ¬ isIHI ⟨none, v⟩ = true := by simp [isIHI]
      rw [List.map_cons, List.find?_cons_of_neg _ hn]
      have h2 : findIHIJ (identifierToJ ⟨none, v⟩ :: rest.map identifierToJ)
          = findIHIJ (rest.map identifierToJ) := by
        cases v <;> rfl
      rw [h2, ih]
    | some t =>
      by_cases ht : t = "IHI"
      · subst ht
        have hp : isIHI ⟨some "IHI", v⟩ = true := by simp [isIHI]
        rw [List.map_cons, List.find?_cons_of_pos _ hp]
        cases v <;> rfl
      · have hn : ¬ isIHI ⟨some t, v⟩ = true := by simp [isIHI, ht]
        have hbe : (t == "IHI") = false := by simp [ht]
        rw [List.map_cons, List.find?_cons_of_neg _ hn]
        have h2 : findIHIJ (identifierToJ ⟨some t, v⟩ :: rest.map identifierToJ)
            = findIHIJ (rest.map identifierToJ) := by
          cases v <;> simp [findIHIJ, identifierToJ, optEntryV, optEntry, pyGet,
            List.lookup, jEqStr, hbe, bind_ok_py]
        rw [h2, ih]

theorem getPatientIdentifierJ_toJ (p : Patient) :
    getPatientIdentifierJ (patientToJ p) = .ok (.str (getPatientIdentifier p)) := by
  simp only [getPatientIdentifierJ, pyGet_patientToJ_identifier, bind_ok_py, pyIter,
    findIHIJ_map]
  cases hf : p.identifier.find? isIHI with
  | some i =>
    simp only [Option.map_some, getPatientIdentifier, hf]
    rfl
  | none =>
    cases hl : p.identifier with
    | nil =>
      simp only [hl, List.map_nil, Option.map_none, bind_ok_py, truthy, List.isEmpty_nil,
        Bool.not_true, Bool.false_eq_true, if_false, pyGet_patientToJ_id]
      rw [hl] at hf
      simp only [getPatientIdentifier, hl, hf]
      cases p.id <;> rfl
    | cons i rest =>
      rw [hl] at hf
      simp only [hl, List.map_cons, Option.map_none, bind_ok_py, truthy,
        List.isEmpty_cons, Bool.not_false, if_true, pyIndex0, bind_ok_py,
        pyGet_identifierToJ_value]
      simp only [getPatientIdentifier, hl, hf]
      rfl

theorem pyGet_nameToJ_use (n : HumanName) :
    pyGet (nameToJ n) "use" .null = .ok ((n.use.map JVal.str).getD .null) := by
  obtain ⟨u, fam, giv, prefs⟩ := n
  cases u <;> cases fam <;> rfl

theorem findUsualJ_map (l : List HumanName) :
    findUsualJ (l.map nameToJ) = .ok ((l.find? isUsual).map nameToJ) := by
  induction l with
  | nil => rfl
  | cons n rest ih =>
    obtain ⟨u, fam, giv, prefs⟩ := n
    cases u with
    | none =>
      have hn : ¬ isUsual ⟨none, fam, giv, prefs⟩ = true := by simp [isUsual]
      rw [List.map_cons, List.find?_cons_of_neg _ hn]
      have h2 : findUsualJ (nameToJ ⟨none, fam, giv, prefs⟩ :: rest.map nameToJ)
          = findUsualJ (rest.map nameToJ) := by
        cases fam <;> rfl
      rw [h2, ih]
    | some us =>
      by_cases hu : us = "usual"
      · subst hu
        have hp : isUsual ⟨some "usual", fam, giv, prefs⟩ = true := by simp [isUsual]
        rw [List.map_cons, List.find?_cons_of_pos _ hp]
        cases fam <;> rfl
      · have hn : ¬ isUsual ⟨some us, fam, giv, prefs⟩ = true := by simp [isUsual, hu]
        have hbe : (us == "usual") = false := by simp [hu]
        rw [List.map_cons, List.find?_cons_of_neg _ hn]
        have h2 : findUsualJ (nameToJ ⟨some us, fam, giv, prefs⟩ :: rest.map nameToJ)
            = findUsualJ (rest.map nameToJ) := by
          cases fam <;> simp [findUsualJ, nameToJ, optEntryV, optEntry, pyGet,
            List.lookup, jEqStr, hbe, bind_ok_py]
        rw [h2, ih]

theorem getPatientNameJ_toJ (p : Patient) :
    getPatientNameJ (patientToJ p) = .ok ((getPatientName p).map nameToJ) := by
  simp only [getPatientNameJ, pyGet_patientToJ_name, bind_ok_py]
  cases hl : p.name with
  | nil =>
    simp [getPatientName, hl, truthy, pure_ok]
  | cons n rest =>
    simp only [List.map_cons, truthy, List.isEmpty_cons, Bool.not_false, if_true, pyIter,
      bind_ok_py]
    simp only [← List.map_cons nameToJ n rest, findUsualJ_map, bind_ok_py]
    cases hf : (n :: rest).find? isUsual with
    | some u =>
      simp only [Option.map_some, getPatientName, hl, hf]
      rfl
    | none =>
      simp only [Option.map_none, getPatientName, hl, hf, pyIndex0, bind_ok_py]
      rfl

theorem getPatientAddressJ_toJ (p : Patient) :
    getPatientAddressJ (patientToJ p) = .ok ((getPatientAddress p).map addressToJ) := by
  simp only [getPatientAddressJ, pyGet_patientToJ_address, bind_ok_py]
  cases hl : p.address with
  | nil => simp [getPatientAddress, hl, truthy, pure_ok]
  | cons a rest =>
    simp only [List.map_cons, truthy, List.isEmpty_cons, Bool.not_false, if_true,
      pyIndex0, bind_ok_py, getPatientAddress, hl]
    rfl

theorem pid5FromNameJ_toJ (optName : Option HumanName) :
    pid5FromNameJ (optName.map nameToJ) = .ok (buildPid5 optName) := by
  cases optName with
  | none => rfl
  | some n =>
    obtain ⟨u, fam, giv, prefs⟩ := n
    cases u <;> cases fam <;>
      rcases giv with _ | ⟨g1, _ | ⟨g2, gtail⟩⟩ <;>
      rcases prefs with _ | ⟨t, trest⟩ <;>
      first
        | rfl
        | simp [pid5FromNameJ, nameToJ, buildPid5, optEntry, optEntryV, pyGet,
            List.lookup, truthy, pyLen, pyIndex0, pyIndex1, pyStr, bind_ok_py, pure_ok]

theorem strListOf_map_str (l : List String) : strListOf (l.map JVal.str) = some l := by
  induction l with
  | nil => rfl
  | cons s rest ih => simp [strListOf, ih]

theorem pid11FromAddressJ_toJ (oa : Option AddressEntry) :
    pid11FromAddressJ (oa.map addressToJ) = .ok (pid11FromAddress oa) := by
  cases oa with
  | none => rfl
  | some a =>
    obtain ⟨line, city, st, pc, country⟩ := a
    cases line with
    | nil =>
      cases city <;> cases st <;> cases pc <;> cases country <;> rfl
    | cons x xs =>
      have hj : pyJoinCaret (JVal.arr ((x :: xs).map JVal.str))
          = .ok (String.intercalate "^" (x :: xs)) := by
        simp [pyJoinCaret, strListOf, strListOf_map_str]
      cases city <;> cases st <;> cases pc <;> cases country <;>
        simp [pid11FromAddressJ, addressToJ, pid11FromAddress, optEntry, optEntryV,
          pyGet, List.lookup, truthy, bind_ok_py, pure_ok, hj, pyJoinCaret, strListOf,
          strListOf_map_str]

theorem pid7J_toJ (p : Patient) :
    pid7J (patientToJ p) = .ok (pid7val p) := by
  simp only [pid7J, pyGet_patientToJ_birthDate, bind_ok_py]
  cases hb : p.birthDate with
  | none => simp [pid7val, hb, truthy, pure_ok]
  | some s =>
    by_cases hs : s = ""
    · subst hs
      simp [pid7val, hb, truthy, pure_ok]
    · simp only [Option.map_some, Option.getD_some, truthy]
      rw [if_pos (by simpa using hs)]
      simp only [pid7val, hb, Option.getD_some]
      rw [if_neg hs]
      cases hp : parseYMD s with
      | none => simp [hp, pure_ok]
      | some ymd => obtain ⟨y, m, d⟩ := ymd; simp [hp, pure_ok]

theorem pid8J_toJ (p : Patient) :
    pid8J (patientToJ p) = .ok (pid8val p) := by
  simp only [pid8J, pyGet_patientToJ_gender, bind_ok_py]
  cases hg : p.gender with
  | none => simp [pid8val, hg, pure_ok]
  | some g => simp [pid8val, hg, pure_ok]

theorem mapTelecomUseJ_str (u : String) :
    mapTelecomUseJ (.str u) = mapTelecomUse u := by
  simp only [mapTelecomUseJ, mapTelecomUse, jEqStr, beq_iff_eq]

theorem pyGet_contactToJ (c : ContactPoint) (k : String) (d : JVal) :
    (k = "system" ∨ k = "value" ∨ k = "use") →
    pyGet (contactToJ c) k d =
      .ok ((match k with
            | "system" => c.system
            | "value" => c.value
            | _ => c.use).map JVal.str |>.getD d) := by
  obtain ⟨sys, v, u⟩ := c
  rintro (rfl | rfl | rfl) <;> cases sys <;> cases v <;> cases u <;> rfl

theorem fmtLoopJ_map (l : List ContactPoint) :
    fmtLoopJ (l.map contactToJ) = .ok (formattedContacts l) := by
  induction l with
  | nil => rfl
  | cons c rest ih =>
    obtain ⟨sys, v, u⟩ := c
    simp only [List.map_cons, fmtLoopJ,
      pyGet_contactToJ ⟨sys, v, u⟩ "system" _ (Or.inl rfl),
      pyGet_contactToJ ⟨sys, v, u⟩ "value" _ (Or.inr (Or.inl rfl)),
      pyGet_contactToJ ⟨sys, v, u⟩ "use" _ (Or.inr (Or.inr rfl)),
      bind_ok_py, ih]
    simp only [formattedContacts, fmtContact]
    cases v with
    | none => rfl
    | some vv =>
      by_cases hv : vv = ""
      · subst hv
        rfl
      · simp only [Option.map_some, Option.getD_some, truthy]
        rw [if_neg (by simp [hv])]
        rw [show (if vv = "" then (none : Option String) else
              if (⟨sys, some vv, u⟩ : ContactPoint).system.getD "" = "phone" then
                some (phoneEntry ((⟨sys, some vv, u⟩ : ContactPoint).use.getD "") vv)
              else if (⟨sys, some vv, u⟩ : ContactPoint).system.getD "" = "email" then
                some (emailEntry vv)
              else none)
            = (if (⟨sys, some vv, u⟩ : ContactPoint).system.getD "" = "phone" then
                some (phoneEntry ((⟨sys, some vv, u⟩ : ContactPoint).use.getD "") vv)
              else if (⟨sys, some vv, u⟩ : ContactPoint).system.getD "" = "email" then
                some (emailEntry vv)
              else none) from if_neg hv]
        cases sys with
        | none => simp [jEqStr, pure_ok]
        | some ss =>
          by_cases hp : ss = "phone"
          · subst hp
            simp only [jEqStr, beq_iff_eq, if_pos rfl, Option.getD_some]
            simp [pyStr, phoneEntry, mapTelecomUseJ_str, pure_ok]
          · by_cases he : ss = "email"
            · subst he
              have hbe : ("email" == "phone") = false := by decide
              simp [jEqStr, hbe, hp, pyStr, emailEntry, pure_ok]
            · have h1 : (ss == "phone") = false := by simp [hp]
              have h2 : (ss == "email") = false := by simp [he]
              simp [jEqStr, h1, h2, hp, he, pure_ok]

theorem formatTelecomJ_toJ (l : List ContactPoint) :
    formatTelecomJ (.arr (l.map contactToJ)) = .ok (formatTelecom l) := by
  cases l with
  | nil => rfl
  | cons c rest =>
    simp only [formatTelecomJ, truthy, List.map_cons, List.isEmpty_cons, Bool.not_true,
      Bool.false_eq_true, if_false, pyIter, bind_ok_py]
    simp only [← List.map_cons contactToJ c rest, fmtLoopJ_map, bind_ok_py]
    simp [formatTelecom, pure_ok]

theorem phonesLoopJ_map (l : List ContactPoint) :
    phonesLoopJ (l.map contactToJ) = .ok (phoneContacts l) := by
  induction l with
  | nil => rfl
  | cons c rest ih =>
    obtain ⟨sys, v, u⟩ := c
    simp only [List.map_cons, phonesLoopJ,
      pyGet_contactToJ ⟨sys, v, u⟩ "system" _ (Or.inl rfl),
      pyGet_contactToJ ⟨sys, v, u⟩ "value" _ (Or.inr (Or.inl rfl)),
      pyGet_contactToJ ⟨sys, v, u⟩ "use" _ (Or.inr (Or.inr rfl)),
      bind_ok_py, ih]
    simp only [phoneContacts, isPhoneWithValue]
    cases sys with
    | none => simp [jEqStr, ih]
    | some ss =>
      by_cases hp : ss = "phone"
      · subst hp
        simp only [Option.map_some, Option.getD_some, jEqStr, beq_iff_eq,
          if_pos rfl]
        cases v with
        | none => simp [truthy, ih]
        | some vv =>
          by_cases hv : vv = ""
          · subst hv
            simp [truthy, ih]
          · simp only [Option.map_some, Option.getD_some, truthy]
            rw [if_pos (by simp [hv])]
            rw [show ((some "phone" : Option String) == some "phone" && !(vv == ""))
                = true from by simp [hv]]
            simp only [if_true, bind_ok_py, ih, pure_ok]
            simp [pyStr, phoneEntry, mapTelecomUseJ_str, hv]
      · have h1 : (ss == "phone") = false := by simp [hp]
        have h2 : ((some ss : Option String) == some "phone") = false := by simp [hp]
        simp [jEqStr, h1, h2, ih]

theorem getAdditionalPhonesJ_toJ (l : List ContactPoint) :
    getAdditionalPhonesJ (.arr (l.map contactToJ)) = .ok (getAdditionalPhones l) := by
  simp [getAdditionalPhonesJ, pyIter, bind_ok_py, phonesLoopJ_map, getAdditionalPhones,
    pure_ok]

theorem pidFieldsJ_toJ (p : Patient) :
    pidFieldsJ (patientToJ p) = .ok (pidFields p) := by
  simp only [pidFieldsJ, getPatientIdentifierJ_toJ, bind_ok_py, getPatientNameJ_toJ,
    pid5FromNameJ_toJ, pid7J_toJ, pid8J_toJ, getPatientAddressJ_toJ,
    pid11FromAddressJ_toJ, pyGet_patientToJ_telecom, formatTelecomJ_toJ,
    getAdditionalPhonesJ_toJ, pure_ok]
  rfl

theorem mshFieldsJ_toJ (now : DateTime) (p : Patient) :
    mshFieldsJ now (patientToJ p) = .ok (mshFields now p) := by
  simp only [mshFieldsJ, getPatientIdentifierJ_toJ, bind_ok_py, pure_ok]
  rfl

theorem convertPatientJ_toJ (now : DateTime) (p : Patient) :
    convertPatientJ now (patientToJ p) = .ok (convertPatient now p) := by
  simp only [convertPatientJ, mshFieldsJ_toJ, bind_ok_py, pidFieldsJ_toJ, pure_ok]
  rfl

/-- C8 counterexample: a record that is a mapping but carries a non-list
identifier field makes the conversion fail, so failure is not confined to
non-mapping inputs. -/
theorem C8_error_contract_counterexample :
    isObjJ (JVal.obj [("identifier", JVal.num 1)]) = true
  ∧ (convertPatientJ clockA (JVal.obj [("identifier", JVal.num 1)])).isOk = false := by
  decide

/-- C8 amended: the conversion fails on every input that is not a mapping (the
first attribute access raises); it can also fail on a mapping whose present
fields are not of the recognized shape; but for every mapping in the
recognized shape, with any subset of the optional fields missing, it succeeds
and produces exactly the typed conversion's output, normalizing missing data
to empty or unknown defaults. -/
theorem C8_error_contract_amended :
    (∀ now j, isObjJ j = false → convertPatientJ now j = .error .attrError)
  ∧ (∀ now p, convertPatientJ now (patientToJ p) = .ok (convertPatient now p)) := by
  constructor
  · intro now j h
    cases j with
    | obj entries => simp [isObjJ] at h
    | null => rfl
    | bool b => rfl
    | num n => rfl
    | str s => rfl
    | arr elems => rfl
  · exact convertPatientJ_toJ

/-- C8 witness: a non-mapping input fails, and the all-fields-missing mapping
converts successfully to the same string as the typed embedding. -/
theorem C8_error_contract_witness :
    convertPatientJ clockA JVal.null = .error .attrError
  ∧ convertPatientJ clockA (patientToJ emptyPatient)
      = .ok (convertPatient clockA emptyPatient) :=
  ⟨C8_error_contract_amended.1 clockA JVal.null rfl,
   C8_error_contract_amended.2 clockA emptyPatient⟩

/-! ## Claim C9: the ER7 round-trip law -/

theorem splitSep_ne_nil (sep : Char) (l : List Char) : splitSep sep l ≠ [] := by
  induction l with
  | nil => simp [splitSep]
  | cons c rest ih =>
    simp only [splitSep]
    cases h : splitSep sep rest with
    | nil => simp
    | cons p ps => by_cases hc : c = sep <;> simp [hc]

theorem splitSep_sepFree (sep : Char) (p : List Char) (h : sep ∉ p) :
    splitSep sep p = [p] := by
  induction p with
  | nil => rfl
  | cons c rest ih =>
    have hc : c ≠ sep := by rintro rfl; exact h (List.mem_cons_self _ _)
    have hr : sep ∉ rest := fun hm => h (List.mem_cons_of_mem _ hm)
    simp [splitSep, ih hr, hc]

theorem splitSep_append (sep : Char) (p t : List Char) (h : sep ∉ p) :
    splitSep sep (p ++ sep :: t) = p :: splitSep sep t := by
  induction p with
  | nil =>
    simp only [List.nil_append, splitSep]
    cases hs : splitSep sep t with
    | nil => exact absurd hs (splitSep_ne_nil sep t)
    | cons q qs => simp
  | cons c rest ih =>
    have hc : c ≠ sep := by rintro rfl; exact h (List.mem_cons_self _ _)
    have hr : sep ∉ rest := fun hm => h (List.mem_cons_of_mem _ hm)
    rw [List.cons_append]
    simp only [splitSep]
    rw [ih hr]
    simp [hc]

theorem splitSep_joinSep (sep : Char) (parts : List (List Char)) (hne : parts ≠ [])
    (h : ∀ p ∈ parts, sep ∉ p) :
    splitSep sep (joinSep sep parts) = parts := by
  induction parts with
  | nil => exact absurd rfl hne
  | cons p rest ih =>
    cases rest with
    | nil => exact splitSep_sepFree sep p (h p (by simp))
    | cons q qs =>
      rw [show joinSep sep (p :: q :: qs) = p ++ sep :: joinSep sep (q :: qs) from rfl]
      rw [splitSep_append sep _ _ (h p (by simp))]
      rw [ih (by simp) (fun r hr => h r (List.mem_cons_of_mem _ hr))]

theorem mem_joinSep (sep : Char) (parts : List (List Char)) (x : Char)
    (h : x ∈ joinSep sep parts) : x = sep ∨ ∃ p ∈ parts, x ∈ p := by
  induction parts with
  | nil => simp [joinSep] at h
  | cons p rest ih =>
    cases rest with
    | nil => exact Or.inr ⟨p, by simp, h⟩
    | cons q qs =>
      rw [show joinSep sep (p :: q :: qs) = p ++ sep :: joinSep sep (q :: qs) from rfl] at h
      rcases List.mem_append.mp h with hm | hm
      · exact Or.inr ⟨p, by simp, hm⟩
      · rcases List.mem_cons.mp hm with rfl | hm
        · exact Or.inl rfl
        · rcases ih hm with h1 | ⟨r, hr, hx⟩
          · exact Or.inl h1
          · exact Or.inr ⟨r, List.mem_cons_of_mem _ hr, hx⟩

theorem escapeText_delim_free (s : List Char) (d : Char)
    (hd : d = '|' ∨ d = '^' ∨ d = '~' ∨ d = '&') : d ∉ escapeText s := by
  induction s with
  | nil => simp [escapeText]
  | cons c rest ih =>
    simp only [escapeText, List.mem_append]
    rintro (hm | hm)
    · unfold escapeChar at hm
      split_ifs at hm with e1 e2 e3 e4 e5 <;>
        rcases hd with rfl | rfl | rfl | rfl <;>
        first
          | exact absurd hm (by decide)
          | (simp only [List.mem_singleton] at hm
             exact absurd hm.symm (by assumption))
    · exact ih hm

theorem escapeText_cr_free (s : List Char) (h : '\r' ∉ s) : '\r' ∉ escapeText s := by
  induction s with
  | nil => simp [escapeText]
  | cons c rest ih =>
    have hc : c ≠ '\r' := by rintro rfl; exact h (List.mem_cons_self _ _)
    have hr : '\r' ∉ rest := fun hm => h (List.mem_cons_of_mem _ hm)
    simp only [escapeText, List.mem_append]
    rintro (hm | hm)
    · unfold escapeChar at hm
      split_ifs at hm with e1 e2 e3 e4 e5 <;>
        first
          | exact absurd hm (by decide)
          | (simp only [List.mem_singleton] at hm
             exact absurd hm.symm hc)
    · exact ih hr hm

theorem unescapeText_cons_ne (c : Char) (l : List Char) (h : c ≠ '\\') :
    unescapeText (c :: l) = c :: unescapeText l := by
  match l with
  | [] => rfl
  | [d] => rfl
  | d :: e :: r => simp [unescapeText, h]

theorem unescapeText_esc (d : Char) (l : List Char) :
    unescapeText ('\\' :: d :: '\\' :: l) = unescCode d :: unescapeText l := by
  simp [unescapeText]

theorem unescape_escape (s : List Char) : unescapeText (escapeText s) = s := by
  induction s with
  | nil => rfl
  | cons c rest ih =>
    by_cases h1 : c = '|'
    · subst h1
      rw [show escapeText ('|' :: rest) = '\\' :: 'F' :: '\\' :: escapeText rest from rfl,
        unescapeText_esc, ih]
      rfl
    · by_cases h2 : c = '^'
      · subst h2
        rw [show escapeText ('^' :: rest) = '\\' :: 'S' :: '\\' :: escapeText rest from rfl,
          unescapeText_esc, ih]
        rfl
      · by_cases h3 : c = '~'
        · subst h3
          rw [show escapeText ('~' :: rest) = '\\' :: 'R' :: '\\' :: escapeText rest from rfl,
            unescapeText_esc, ih]
          rfl
        · by_cases h4 : c = '&'
          · subst h4
            rw [show escapeText ('&' :: rest)
                  = '\\' :: 'T' :: '\\' :: escapeText rest from rfl,
              unescapeText_esc, ih]
            rfl
          · by_cases h5 : c = '\\'
            · subst h5
              rw [show escapeText ('\\' :: rest)
                    = '\\' :: 'E' :: '\\' :: escapeText rest from rfl,
                unescapeText_esc, ih]
              rfl
            · have he : escapeChar c = [c] := by simp [escapeChar, h1, h2, h3, h4, h5]
              rw [show escapeText (c :: rest) = escapeChar c ++ escapeText rest from rfl,
                he, List.singleton_append, unescapeText_cons_ne c _ h5, ih]

theorem map_id_of_mem {α : Type} (l : List α) (f : α → α) (h : ∀ a ∈ l, f a = a) :
    l.map f = l := by
  induction l with
  | nil => rfl
  | cons a rest ih =>
    simp only [List.map_cons, h a (List.mem_cons_self _ _),
      ih (fun b hb => h b (List.mem_cons_of_mem _ hb))]

theorem notMem_encodeComp (c : HComp) (d : Char)
    (hd : d = '|' ∨ d = '^' ∨ d = '~') : d ∉ encodeComp c := by
  intro h
  rcases mem_joinSep _ _ _ h with rfl | ⟨p, hp, hx⟩
  · simp at hd
  · rcases List.mem_map.mp hp with ⟨sub, _, rfl⟩
    exact escapeText_delim_free sub d (by tauto) hx

theorem crFree_encodeComp (c : HComp) (hcr : ∀ sub ∈ c, '\r' ∉ sub) :
    '\r' ∉ encodeComp c := by
  intro h
  rcases mem_joinSep _ _ _ h with h1 | ⟨p, hp, hx⟩
  · simp at h1
  · rcases List.mem_map.mp hp with ⟨sub, hsub, rfl⟩
    exact escapeText_cr_free sub (hcr sub hsub) hx

theorem notMem_encodeRep (r : HRep) (d : Char) (hd : d = '|' ∨ d = '~') :
    d ∉ encodeRep r := by
  intro h
  rcases mem_joinSep _ _ _ h with rfl | ⟨p, hp, hx⟩
  · simp at hd
  · rcases List.mem_map.mp hp with ⟨comp, _, rfl⟩
    exact notMem_encodeComp comp d (by tauto) hx

theorem crFree_encodeRep (r : HRep) (hcr : ∀ comp ∈ r, ∀ sub ∈ comp, '\r' ∉ sub) :
    '\r' ∉ encodeRep r := by
  intro h
  rcases mem_joinSep _ _ _ h with h1 | ⟨p, hp, hx⟩
  · simp at h1
  · rcases List.mem_map.mp hp with ⟨comp, hcomp, rfl⟩
    exact crFree_encodeComp comp (hcr comp hcomp) hx

theorem notMem_encodeField (f : HField) : '|' ∉ encodeField f := by
  intro h
  rcases mem_joinSep _ _ _ h with h1 | ⟨p, hp, hx⟩
  · simp at h1
  · rcases List.mem_map.mp hp with ⟨rep, _, rfl⟩
    exact notMem_encodeRep rep '|' (Or.inl rfl) hx

theorem crFree_encodeField (f : HField)
    (hcr : ∀ rep ∈ f, ∀ comp ∈ rep, ∀ sub ∈ comp, '\r' ∉ sub) :
    '\r' ∉ encodeField f := by
  intro h
  rcases mem_joinSep _ _ _ h with h1 | ⟨p, hp, hx⟩
  · simp at h1
  · rcases List.mem_map.mp hp with ⟨rep, hrep, rfl⟩
    exact crFree_encodeRep rep (hcr rep hrep) hx

theorem validSegName_notMem (n : List Char) (h : validSegName n = true) (d : Char)
    (hd : d.isUpper = false) (hd2 : d.isDigit = false) : d ∉ n := by
  intro hm
  have hall : n.all (fun c => c.isUpper || c.isDigit) = true := by
    simp only [validSegName, Bool.and_eq_true] at h
    exact h.2
  have := List.all_eq_true.mp hall d hm
  rw [hd, hd2] at this
  simp at this

theorem crFree_encodeSeg (s : HSegment) (hn : validSegName s.name = true)
    (hcr : ∀ f ∈ s.fields, ∀ rep ∈ f, ∀ comp ∈ rep, ∀ sub ∈ comp, '\r' ∉ sub) :
    '\r' ∉ encodeSeg s := by
  intro h
  rcases mem_joinSep _ _ _ h with h1 | ⟨p, hp, hx⟩
  · simp at h1
  · rcases List.mem_cons.mp hp with rfl | hp2
    · exact validSegName_notMem s.name hn '\r' (by decide) (by decide) hx
    · rcases List.mem_map.mp hp2 with ⟨f, hf, rfl⟩
      exact crFree_encodeField f (hcr f hf) hx

theorem decodeComp_encodeComp (c : HComp) (hc : c ≠ []) :
    decodeComp (encodeComp c) = c := by
  unfold decodeComp encodeComp
  rw [splitSep_joinSep '&' (c.map escapeText) (by simpa using hc)
      (fun p hp => by
        rcases List.mem_map.mp hp with ⟨sub, _, rfl⟩
        exact escapeText_delim_free sub '&' (by tauto))]
  rw [List.map_map]
  exact map_id_of_mem c _ (fun sub _ => unescape_escape sub)

theorem decodeRep_encodeRep (r : HRep) (h1 : r ≠ []) (h2 : ∀ c ∈ r, c ≠ []) :
    decodeRep (encodeRep r) = r := by
  unfold decodeRep encodeRep
  rw [splitSep_joinSep '^' (r.map encodeComp) (by simpa using h1)
      (fun p hp => by
        rcases List.mem_map.mp hp with ⟨comp, _, rfl⟩
        exact notMem_encodeComp comp '^' (by tauto))]
  rw [List.map_map]
  exact map_id_of_mem r _ (fun comp hcomp => decodeComp_encodeComp comp (h2 comp hcomp))

theorem decodeField_encodeField (f : HField) (h1 : f ≠ [])
    (h2 : ∀ r ∈ f, r ≠ []) (h3 : ∀ r ∈ f, ∀ c ∈ r, c ≠ []) :
    decodeField (encodeField f) = f := by
  unfold decodeField encodeField
  rw [splitSep_joinSep '~' (f.map encodeRep) (by simpa using h1)
      (fun p hp => by
        rcases List.mem_map.mp hp with ⟨rep, _, rfl⟩
        exact notMem_encodeRep rep '~' (by tauto))]
  rw [List.map_map]
  exact map_id_of_mem f _
    (fun rep hrep => decodeRep_encodeRep rep (h2 rep hrep) (h3 rep hrep))

theorem decodeSeg_encodeSeg (s : HSegment) (hn : validSegName s.name = true)
    (h1 : ∀ f ∈ s.fields, f ≠ [])
    (h2 : ∀ f ∈ s.fields, ∀ r ∈ f, r ≠ [])
    (h3 : ∀ f ∈ s.fields, ∀ r ∈ f, ∀ c ∈ r, c ≠ []) :
    decodeSeg (encodeSeg s) = s := by
  unfold decodeSeg encodeSeg
  rw [splitSep_joinSep '|' (s.name :: s.fields.map encodeField) (by simp)
      (fun p hp => by
        rcases List.mem_cons.mp hp with rfl | hp2
        · exact validSegName_notMem s.name hn '|' (by decide) (by decide)
        · rcases List.mem_map.mp hp2 with ⟨f, _, rfl⟩
          exact notMem_encodeField f)]
  show HSegment.mk s.name ((s.fields.map encodeField).map decodeField) = s
  rw [List.map_map]
  have hmap : s.fields.map (decodeField ∘ encodeField) = s.fields :=
    map_id_of_mem s.fields (decodeField ∘ encodeField)
      (fun f hf => decodeField_encodeField f (h1 f hf) (h2 f hf) (h3 f hf))
  rw [hmap]

theorem splitSep_encodeMsg (m : HMessage) (h : ∀ seg ∈ m, '\r' ∉ encodeSeg seg) :
    splitSep '\r' (encodeMsg m) = (m.map encodeSeg) ++ [[]] := by
  induction m with
  | nil => rfl
  | cons s rest ih =>
    rw [show encodeMsg (s :: rest) = encodeSeg s ++ '\r' :: encodeMsg rest from rfl]
    rw [splitSep_append _ _ _ (h s (List.mem_cons_self _ _))]
    rw [ih (fun seg hseg => h seg (List.mem_cons_of_mem _ hseg))]
    rfl

/-- C9 counterexample: a message whose single leaf contains a carriage return
(the segment terminator, which the escaping of the delimiter set does not
cover) does not survive the round trip. -/
theorem C9_roundtrip_counterexample :
    decodeMsg (encodeMsg crLeafMsg) ≠ crLeafMsg := by decide

/-- C9 amended: for every well-formed message (at least one segment,
three-character alphanumeric segment names, and the one-or-more structure of
the data model) whose leaf text is free of the carriage-return segment
terminator, decoding the encoding restores the message exactly; leaf text may
freely contain all four delimiters and the escape character. -/
theorem C9_roundtrip_amended (m : HMessage) (hwf : wfMsg m = true)
    (hcr : crFreeMsg m = true) : decodeMsg (encodeMsg m) = m := by
  have hseg : ∀ seg ∈ m, wfSeg seg = true := by
    simp only [wfMsg, Bool.and_eq_true, List.all_eq_true] at hwf
    exact hwf.2
  have hcrseg : ∀ seg ∈ m, ∀ f ∈ seg.fields, ∀ r ∈ f, ∀ c ∈ r, ∀ sub ∈ c,
      '\r' ∉ sub := by
    simp only [crFreeMsg, List.all_eq_true] at hcr
    intro seg hs f hf r hr c hc sub hsub
    have := hcr seg hs f hf r hr c hc sub hsub
    simpa using this
  have hnames : ∀ seg ∈ m, validSegName seg.name = true := by
    intro seg hs
    have := hseg seg hs
    simp only [wfSeg, Bool.and_eq_true] at this
    exact this.1
  have hfields : ∀ seg ∈ m, ∀ f ∈ seg.fields, wfField f = true := by
    intro seg hs
    have := hseg seg hs
    simp only [wfSeg, Bool.and_eq_true, List.all_eq_true] at this
    exact this.2
  have hcrEnc : ∀ seg ∈ m, '\r' ∉ encodeSeg seg := fun seg hs =>
    crFree_encodeSeg seg (hnames seg hs) (hcrseg seg hs)
  unfold decodeMsg
  rw [splitSep_encodeMsg m hcrEnc, List.dropLast_concat, List.map_map]
  apply map_id_of_mem
  intro seg hs
  have hf := hfields seg hs
  apply decodeSeg_encodeSeg seg (hnames seg hs)
  · intro f hfm
    have := hf f hfm
    simp only [wfField, Bool.and_eq_true] at this
    simpa using this.1
  · intro f hfm r hr
    have := hf f hfm
    simp only [wfField, Bool.and_eq_true, List.all_eq_true] at this
    have h2 := this.2 r hr
    simp only [Bool.and_eq_true] at h2
    simpa using h2.1
  · intro f hfm r hr c hc
    have := hf f hfm
    simp only [wfField, Bool.and_eq_true, List.all_eq_true] at this
    have h2 := this.2 r hr
    simp only [Bool.and_eq_true, List.all_eq_true] at h2
    have h3 := h2.2 c hc
    simpa using h3

/-- C9 witness: a concrete well-formed message whose first leaf contains all
four delimiters and the escape character survives the round trip. -/
theorem C9_roundtrip_witness :
    decodeMsg (encodeMsg delimLeafMsg) = delimLeafMsg :=
  C9_roundtrip_amended delimLeafMsg (by decide) (by decide)

end WhrConverter
